import Mathlib

/-!
Verification development for the Xero export scripts.

The development shallowly embeds the Python sources:
* `src/token_manager.py` — OAuth2 token lifecycle (load / expiry check / refresh / persist);
* `src/new_int.py` — paginated fetching (`make_paginated_api_call`), JSON-to-table
  normalization (`normalize_data`, `_process_dates_in_df`);
* `src/pipeline.py` — the alternative pagination loop (`fetch_all_records`);
* `src/xero_api/supabase_config.py` — upsert preparation (`prepare_data_for_supabase`).

Machine time is modelled as an integer epoch value.  HTTP traffic is modelled by
passing the relevant response (or a `Nat`-indexed family of per-page responses)
as an explicit argument; stateful file persistence is modelled by explicit state
passing of the stored token.
-/

set_option autoImplicit false

namespace XeroPkg

/-! ## Token manager (`src/token_manager.py`)

A token is a JSON object; the scripts only ever read the fields below, so the
object is embedded as a structure whose `Option` fields record key presence
(`none` = the key is absent from the dict). -/

structure OAuthToken where
  access_token : Option String
  refresh_token : Option String
  token_type : Option String
  expires_in : Option Int
  stored_at : Option Int
  expires_at : Option Int
  deriving Repr, DecidableEq

/-- Body of a successful token-endpoint response (`response.json()`). -/
structure TokenResponse where
  access_token : Option String
  refresh_token : Option String
  token_type : Option String
  expires_in : Option Int
  deriving Repr, DecidableEq

/-- Outcome of the HTTP POST to the token endpoint: either a JSON body with
status 2xx, or a transport/HTTP failure (`raise_for_status` or the request
itself raising). -/
inductive HttpResult where
  | success (body : TokenResponse)
  | failure (status : Nat)
  deriving Repr, DecidableEq

/-- Errors raised by `refresh_xero_oauth2_token`. -/
inductive RefreshError where
  | missingRefreshToken
  | httpError (status : Nat)
  deriving Repr, DecidableEq

/-- `TOKEN_REFRESH_BUFFER = 300` (src/token_manager.py line 17). -/
def TOKEN_REFRESH_BUFFER : Int := 300

/-- `is_token_expired` (src/token_manager.py lines 31-39).
`token = none` models both a missing and an empty token dict (`not token`).
`now` is the value of `time.time()`. -/
def is_token_expired (token : Option OAuthToken) (now : Int) : Bool :=
  match token with
  | none => true
  | some t =>
    match t.expires_in, t.stored_at with
    | some ei, some sa =>
      -- expires_at = stored_at + expires_in; expired iff now >= expires_at - buffer
      decide (now ≥ sa + ei - TOKEN_REFRESH_BUFFER)
    | _, _ => true

/-- `refresh_xero_oauth2_token` (src/token_manager.py lines 68-98).
The HTTP exchange is passed in as `resp`; `now` is `int(time.time())`. -/
def refresh_xero_oauth2_token (token : OAuthToken) (resp : HttpResult) (now : Int) :
    Except RefreshError OAuthToken :=
  if token.refresh_token = none then
    .error .missingRefreshToken
  else
    match resp with
    | .failure status => .error (.httpError status)
    | .success body =>
      let newTok : OAuthToken :=
        { access_token := body.access_token
          refresh_token := body.refresh_token
          token_type := body.token_type
          expires_in := body.expires_in
          stored_at := none
          expires_at := none }
      -- preserve the old refresh token if the response omits one
      let newTok :=
        if newTok.refresh_token = none then
          { newTok with refresh_token := token.refresh_token }
        else newTok
      .ok { newTok with
              stored_at := some now
              expires_at := some (now + (body.expires_in.getD 1800)) }

/-- `store_token` (src/token_manager.py lines 19-23): stamps `stored_at` and
overwrites the token file wholesale.  The file contents are the second state
component. -/
def store_token (token : OAuthToken) (now : Int) : OAuthToken :=
  { token with stored_at := some now }

/-- `get_valid_token` (src/token_manager.py lines 41-58).
Input: the persisted file contents (`none` = no file), the token-endpoint
response that a refresh attempt would receive, and the current time.
Output: the returned token (or `none`) paired with the file contents after the
call. -/
def get_valid_token (file : Option OAuthToken) (resp : HttpResult) (now : Int) :
    Option OAuthToken × Option OAuthToken :=
  match file with
  | none => (none, none)
  | some token =>
    if token.refresh_token = none then (none, some token)
    else if is_token_expired (some token) now then
      match refresh_xero_oauth2_token token resp now with
      | .error _ => (none, some token)
      | .ok newTok =>
        -- save_xero_oauth2_token → store_token re-stamps stored_at with the
        -- same clock value and persists the whole token
        let saved := store_token newTok now
        (some saved, some saved)
    else (some token, some token)

/-! ## Paginated fetcher (`src/new_int.py` lines 247-325)

The HTTP layer is modelled by a family `server : Nat → PageResp α` giving, for
each page number, the outcome the `requests.get` call for that page has.
`PageResp.ok items` is a 2xx response whose item list (extracted by `key_name`)
is `items`.  `errorWithResponse status retryAfter` is a `RequestException`
carrying an HTTP response — `raise_for_status` on an error status; `retryAfter`
models a numeric `Retry-After` header, `none` when absent (a non-numeric
header, on which `int()` would raise, is not modelled).  `errorNoResponse` is a
`RequestException` whose `response` is `None` (connection failure, timeout):
on it the handler's `e.response.status_code` dereference raises
`AttributeError` out of the function (`LoopResult.raised`).  `otherException`
is any non-requests exception, caught by the final `except Exception`.  The
`while True` loop is embedded with explicit fuel (`outOfFuel` = the loop is
still running after `fuel` iterations).  Observable side effects (which page
is requested, `time.sleep` calls in milliseconds) are returned as an event
trace. -/

inductive PageResp (α : Type) where
  | ok (items : List α)
  | errorWithResponse (status : Nat) (retryAfter : Option Nat)
  | errorNoResponse
  | otherException
  deriving Repr, DecidableEq

/-- How a run of the page loop ends. -/
inductive LoopResult (α : Type) where
  | done (items : List α)
  | raised
  | outOfFuel
  deriving Repr, DecidableEq

inductive FetchEvent where
  | page (n : Nat)
  | sleepMs (ms : Nat)
  deriving Repr, DecidableEq

/-- `page_size = 100` (src/new_int.py line 250). -/
def page_size : Nat := 100

/-- The body of the `while True` loop of `make_paginated_api_call`
(src/new_int.py lines 260-322). -/
def paginate_loop {α : Type} (server : Nat → PageResp α) :
    Nat → Nat → List α → LoopResult α × List FetchEvent
  | 0, _, _ => (.outOfFuel, [])
  | fuel+1, page, acc =>
    match server page with
    | .ok items =>
      -- `if not items: break`
      if items.isEmpty then (.done acc, [.page page])
      else
        -- `all_items.extend(items)`
        let acc2 := acc ++ items
        -- `if len(items) < page_size: break`
        if items.length < page_size then (.done acc2, [.page page])
        else
          -- `page += 1; time.sleep(0.5)`
          let r := paginate_loop server fuel (page+1) acc2
          (r.1, .page page :: .sleepMs 500 :: r.2)
    | .errorWithResponse status ra =>
      -- `if hasattr(e, 'response') and e.response.status_code == 429:`
      if status == 429 then
        -- `retry_after = int(e.response.headers.get('Retry-After', 5))`
        -- `time.sleep(retry_after); continue`  (same page, nothing accumulated)
        let r := paginate_loop server fuel page acc
        (r.1, .page page :: .sleepMs ((ra.getD 5) * 1000) :: r.2)
      else
        -- `break`: the partial accumulation is returned
        (.done acc, [.page page])
    | .errorNoResponse =>
      -- `e.response.status_code` with `e.response = None`: AttributeError
      -- raised inside the handler, propagating out of the function
      (.raised, [.page page])
    | .otherException =>
      -- `except Exception: ... break`, the partial accumulation is returned
      (.done acc, [.page page])

/-- `make_paginated_api_call` (src/new_int.py lines 247-325): starts at page 1
with an empty accumulator. -/
def make_paginated_api_call {α : Type} (server : Nat → PageResp α) (fuel : Nat) :
    LoopResult α × List FetchEvent :=
  paginate_loop server fuel 1 []

/-- Concatenation of the item lists of `gap` consecutive pages starting at
`page`. -/
def pagesConcat {α : Type} (items : Nat → List α) : Nat → Nat → List α
  | _, 0 => []
  | page, gap+1 => items page ++ pagesConcat items (page+1) gap

/-- Trace of `gap` consecutive full-page fetches starting at `page` (each
followed by the 0.5 s politeness sleep). -/
def pagesTrace : Nat → Nat → List FetchEvent
  | _, 0 => []
  | page, gap+1 => .page page :: .sleepMs 500 :: pagesTrace (page+1) gap

/-- `fetch_all_records` (src/pipeline.py lines 29-62), paginated branch.  The
response model mirrors its `except` clauses: `ok items` is a successful call
whose first list-valued field holds `items` (a result with no list-valued field
behaves like `ok []`); `badRequest` is `AccountingBadRequestException`;
`notFound` is a generic exception whose text contains `'404'`; `otherError` is
any other exception.  The trace records the pages requested. -/
inductive FetchResp (α : Type) where
  | ok (items : List α)
  | badRequest
  | notFound
  | otherError
  deriving Repr, DecidableEq

def fetch_all_records_loop {α : Type} (server : Nat → FetchResp α) :
    Nat → Nat → List α → Option (List α) × List Nat
  | 0, _, _ => (none, [])
  | fuel+1, page, acc =>
    match server page with
    | .ok items =>
      -- `if not items_key or not data[items_key]: break`
      if items.isEmpty then (some acc, [page])
      else
        -- `records.extend(data[items_key]); page += 1`  (no page-size check)
        let r := fetch_all_records_loop server fuel (page+1) (acc ++ items)
        (r.1, page :: r.2)
    | .badRequest => (some acc, [page])
    | .notFound => (some [], [page])   -- `return []` discards the accumulation
    | .otherError => (some acc, [page])

def fetch_all_records {α : Type} (server : Nat → FetchResp α) (fuel : Nat) :
    Option (List α) × List Nat :=
  fetch_all_records_loop server fuel 1 []

/-- List of `gap` consecutive page numbers starting at `page`. -/
def pagesList : Nat → Nat → List Nat
  | _, 0 => []
  | page, gap+1 => page :: pagesList (page+1) gap

/-! ### Concrete servers and documents used by the claim theorems -/

/-- A server on which the claim's stopping rule fails for
`fetch_all_records`: page 1 carries `page_size = 100` items, page 2 fewer
(one item), yet pages 3 and 4 are still requested. -/
def c3FetchSrv : Nat → FetchResp Nat
  | 1 => .ok (List.replicate 100 0)
  | 2 => .ok [5]
  | 3 => .ok [6]
  | _ => .ok []

/-- Concrete server for the `make_paginated_api_call` half of the C3 witness:
page 1 returns exactly 100 items, every later page one item. -/
def c3PageSrv : Nat → PageResp Nat
  | 1 => .ok (List.replicate 100 0)
  | _ => .ok [7]

/-- Concrete server for the `fetch_all_records` half of the C3 witness. -/
def c3FetchSrv2 : Nat → FetchResp Nat
  | 1 => .ok [4]
  | 2 => .ok [5]
  | _ => .ok []

/-- A server that always answers 429 with `Retry-After: 3`. -/
def c7Srv : Nat → PageResp Nat := fun _ => .errorWithResponse 429 (some 3)

/-- Server for the C8 witness: page 1 full, page 2 an HTTP 500 error. -/
def c8Srv : Nat → PageResp Nat
  | 1 => .ok (List.replicate 100 2)
  | _ => .errorWithResponse 500 none

/-- Server for the C8 witness: page 1 full, page 2 a requests exception with
no HTTP response. -/
def c8RaiseSrv : Nat → PageResp Nat
  | 1 => .ok (List.replicate 100 2)
  | _ => .errorNoResponse

/-- Server for the C8 counterexample: page 1 already fails with a
connection-level requests exception (no HTTP response attached). -/
def c8ConnSrv : Nat → PageResp Nat := fun _ => .errorNoResponse

/-! ## JSON documents and flat tables (`src/new_int.py` lines 132-241)

`normalize_data` consumes the decoded JSON response (Python dicts / lists /
scalars) and produces a dict of pandas DataFrames.  The embedding:

* `JVal` is a decoded JSON tree.  JSON numbers are modelled as integers (the
  claims only exercise integral values).
* A DataFrame is a `Table`: an ordered list of named columns, each an aligned
  list of `Cell`s.  `Cell.missing` is NaN/NaT/None, `Cell.jval` a value taken
  from the document, `Cell.timestamp` a Python `datetime` (the `LastUpdated`
  stamp), carried as an integer epoch-second value.
* pandas dtype inference is modelled by `columnIsObject` (see its comment),
  `pd.to_datetime(..., errors='coerce')` by `toDatetimeCell` — the string
  parser covers ISO-8601 `YYYY-MM-DD` and `YYYY-MM-DD[T ]HH:MM:SS` forms,
  which are the formats the repository's data and the claims exercise.
-/

inductive JVal where
  | null
  | bool (b : Bool)
  | int (n : Int)
  | str (s : String)
  | arr (xs : List JVal)
  | obj (fields : List (String × JVal))
  deriving Repr

inductive Cell where
  | missing
  | jval (v : JVal)
  | timestamp (t : Int)
  deriving Repr

abbrev Table := List (String × List Cell)

/-- `pd.json_normalize` turns a JSON `null` into a missing value. -/
def cellOfJVal : JVal → Cell
  | .null => .missing
  | v => .jval v

mutual

/-- `pd.json_normalize` flattening of one record: nested objects are flattened
with dotted path names; arrays and scalars are kept as cell values.  Records
are assumed not to produce duplicate flattened keys (Python dicts cannot,
except for pathological keys that already contain dots). -/
def flattenVal : String → JVal → List (String × JVal)
  | k, JVal.obj fs => (flattenFields fs).map (fun p => (k ++ "." ++ p.1, p.2))
  | k, v => [(k, v)]

def flattenFields : List (String × JVal) → List (String × JVal)
  | [] => []
  | (k, v) :: rest => flattenVal k v ++ flattenFields rest

end

/-- Column union across records in order of first appearance. -/
def addCols (acc : List String) (row : List (String × JVal)) : List String :=
  row.foldl (fun a p => if p.1 ∈ a then a else a ++ [p.1]) acc

def colsUnion (rows : List (List (String × JVal))) : List String :=
  rows.foldl addCols []

def lookupField (row : List (String × JVal)) (k : String) : Option JVal :=
  (row.find? (fun p => p.1 == k)).map (fun p => p.2)

/-- `pd.json_normalize(records)`: flatten every record, take the column union,
and fill absent keys with missing values. -/
def buildTable (recs : List (List (String × JVal))) : Table :=
  (colsUnion (recs.map flattenFields)).map (fun c =>
    (c, (recs.map flattenFields).map (fun r =>
          match lookupField r c with
          | some v => cellOfJVal v
          | none => Cell.missing)))

def getCol (n : String) (T : Table) : List Cell :=
  match T.find? (fun c => c.1 == n) with
  | some c => c.2
  | none => []

/-- `df[name] = cells`: overwrite the column in place if it exists (keeping its
position), otherwise append it on the right. -/
def setColumn (n : String) (cells : List Cell) (T : Table) : Table :=
  if T.any (fun c => c.1 == n) then
    T.map (fun c => if c.1 == n then (n, cells) else c)
  else T ++ [(n, cells)]

/-- `df.drop(columns=[name])`. -/
def dropColumn (n : String) (T : Table) : Table :=
  T.filter (fun c => !(c.1 == n))

/-! ### Date handling (`_process_dates_in_df`, src/new_int.py lines 224-241) -/

def isLeapYear (y : Int) : Bool :=
  (y % 4 == 0 && y % 100 != 0) || y % 400 == 0

def daysInMonth (y m : Int) : Int :=
  if m == 2 then (if isLeapYear y then 29 else 28)
  else if m == 4 || m == 6 || m == 9 || m == 11 then 30
  else 31

def digitVal (c : Char) : Option Int :=
  if c.isDigit then some ((c.toNat : Int) - 48) else none

def parseDigits (cs : List Char) : Option Int :=
  cs.foldl (fun acc c => do
    let a ← acc
    let d ← digitVal c
    pure (a * 10 + d)) (some 0)

def parseTimePart : List Char → Bool
  | [h1, h2, ':', m1, m2, ':', s1, s2] =>
    match parseDigits [h1, h2], parseDigits [m1, m2], parseDigits [s1, s2] with
    | some h, some m, some s => decide (h < 24 ∧ m < 60 ∧ s < 60)
    | _, _, _ => false
  | _ => false

def parseYMD : List Char → Option (Int × Int × Int)
  | [y1, y2, y3, y4, '-', m1, m2, '-', d1, d2] => do
    let y ← parseDigits [y1, y2, y3, y4]
    let m ← parseDigits [m1, m2]
    let d ← parseDigits [d1, d2]
    if 1 ≤ m ∧ m ≤ 12 ∧ 1 ≤ d ∧ d ≤ daysInMonth y m then pure (y, m, d) else none
  | _ => none

def padNum (width : Nat) (n : Nat) : String :=
  let s := toString n
  String.mk (List.replicate (width - s.length) '0') ++ s

/-- `strftime('%Y-%m-%d')`. -/
def ymdString (y m d : Int) : String :=
  padNum 4 y.toNat ++ "-" ++ padNum 2 m.toNat ++ "-" ++ padNum 2 d.toNat

/-- Model of the pandas string-to-datetime parser, restricted to ISO-8601
dates and date-times; returns the `%Y-%m-%d` rendering of the parsed value. -/
def parseDateISO (s : String) : Option String :=
  let cs := s.data
  if cs.length == 10 then
    (parseYMD cs).map (fun ymd => ymdString ymd.1 ymd.2.1 ymd.2.2)
  else if cs.length == 19 then
    match parseYMD (cs.take 10), cs.drop 10 with
    | some ymd, sep :: timecs =>
      if (sep == 'T' || sep == ' ') && parseTimePart timecs then
        some (ymdString ymd.1 ymd.2.1 ymd.2.2)
      else none
    | _, _ => none
  else none

/-- Days-since-epoch to civil date (proleptic Gregorian). -/
def civilFromDays (z0 : Int) : Int × Int × Int :=
  let z := z0 + 719468
  let era := Int.fdiv z 146097
  let doe := z - era * 146097
  let yoe := Int.fdiv (doe - Int.fdiv doe 1460 + Int.fdiv doe 36524 - Int.fdiv doe 146096) 365
  let y := yoe + era * 400
  let doy := doe - (365 * yoe + Int.fdiv yoe 4 - Int.fdiv yoe 100)
  let mp := Int.fdiv (5 * doy + 2) 153
  let d := doy - Int.fdiv (153 * mp + 2) 5 + 1
  let m := mp + (if mp < 10 then 3 else -9)
  (y + (if m ≤ 2 then 1 else 0), m, d)

def ymdOfDays (z : Int) : String :=
  let c := civilFromDays z
  ymdString c.1 c.2.1 c.2.2

def nsPerDay : Int := 86400000000000

def secPerDay : Int := 86400

/-- One cell under `pd.to_datetime(column, errors='coerce')`:
`none` = the conversion raises (booleans and composites do, even with
`errors='coerce'`), `some none` = NaT, `some (some s)` = parsed, rendered with
`strftime('%Y-%m-%d')`.  Integers are epoch nanoseconds, datetimes pass
through. -/
def toDatetimeCell : Cell → Option (Option String)
  | .missing => some none
  | .timestamp t => some (some (ymdOfDays (Int.fdiv t secPerDay)))
  | .jval .null => some none
  | .jval (.str s) => some (parseDateISO s)
  | .jval (.int n) => some (some (ymdOfDays (Int.fdiv n nsPerDay)))
  | .jval (.bool _) => none
  | .jval (.arr _) => none
  | .jval (.obj _) => none

inductive CKind where
  | kInt | kBool | kStr | kComp | kTime
  deriving DecidableEq, Repr

def cellKind : Cell → Option CKind
  | .missing => none
  | .timestamp _ => some .kTime
  | .jval .null => none
  | .jval (.int _) => some .kInt
  | .jval (.bool _) => some .kBool
  | .jval (.str _) => some .kStr
  | .jval (.arr _) => some .kComp
  | .jval (.obj _) => some .kComp

def isMissingCell : Cell → Bool
  | .missing => true
  | .jval .null => true
  | _ => false

/-- pandas dtype inference, at the granularity the scripts observe: a column is
`object`-dtyped iff it holds a string or composite value, mixes kinds of
non-missing values, or holds booleans together with missing values.  Columns
of only integers (with or without missing), only booleans, only datetimes, or
nothing at all get a non-object dtype. -/
def columnIsObject (cells : List Cell) : Bool :=
  let ks := cells.filterMap cellKind
  ks.any (fun k => k == CKind.kStr || k == CKind.kComp)
  || (match ks with
      | [] => false
      | k0 :: rest => rest.any (fun k => !(k == k0)))
  || (ks.any (fun k => k == CKind.kBool) && cells.any isMissingCell)

/-- One column of `_process_dates_in_df` (src/new_int.py lines 226-240):
object-dtyped columns are converted with `errors='coerce'`; if the conversion
raises, the column is left as is; if more than half of the rows (`len(df)`)
converted, the column is replaced by the `%Y-%m-%d` strings with NaT as
missing. -/
def processColumn (cells : List Cell) : List Cell :=
  if columnIsObject cells then
    match cells.mapM toDatetimeCell with
    | none => cells
    | some parsed =>
      if 2 * parsed.countP (fun o => o.isSome) > cells.length then
        parsed.map (fun o =>
          match o with
          | some s => Cell.jval (.str s)
          | none => Cell.missing)
      else cells
  else cells

/-- `_process_dates_in_df` (src/new_int.py lines 224-241). -/
def process_dates_in_df (T : Table) : Table :=
  T.map (fun c => (c.1, processColumn c.2))

/-! ### Nested-list expansion (src/new_int.py lines 160-207) -/

/-- `Series.explode`: a list cell becomes one row per element (an empty list
becomes a single missing row, a JSON `null` element a missing value); non-list
cells are kept as a single row. -/
def explodeCell : Cell → List Cell
  | .jval (.arr xs) => if xs.isEmpty then [Cell.missing] else xs.map cellOfJVal
  | c => [c]

/-- `main_df[[parent_id_field, col]].explode(col).dropna()`: pair every
exploded element with its row's parent id and drop rows with a missing value
in either column. -/
def explodePairs (pids cells : List Cell) : List (Cell × Cell) :=
  ((pids.zip cells).flatMap
      (fun pc => (explodeCell pc.2).map (fun e => (pc.1, e)))).filter
    (fun pc => !(isMissingCell pc.1) && !(isMissingCell pc.2))

/-- `pd.json_normalize` over an exploded element: only objects are accepted,
anything else raises. -/
def recordOfCell : Cell → Option (List (String × JVal))
  | .jval (.obj fs) => some fs
  | _ => none

/-- Child-table construction (src/new_int.py lines 197-203): normalize the
exploded elements, copy the parent-id values in as a column (overwriting an
existing column of that name, else appended on the right), then run the date
pass.  `none` models the `pd.json_normalize` call raising. -/
def buildChildTable (pairs : List (Cell × Cell)) (pidField : String) : Option Table := do
  let recs ← pairs.mapM (fun pc => recordOfCell pc.2)
  let child := buildTable recs
  pure (process_dates_in_df (setColumn pidField (pairs.map (fun pc => pc.1)) child))

/-- Insertion into the `result_dfs` dict. -/
def dictUpsert (k : String) (v : Table) (m : List (String × Table)) :
    List (String × Table) :=
  if m.any (fun p => p.1 == k) then m.map (fun p => if p.1 == k then (k, v) else p)
  else m ++ [(k, v)]

/-- `expand_rules` (src/new_int.py lines 162-170):
`(field_to_expand, parent_id_field, new_table_suffix)`. -/
def expand_rules : List (String × String × String) :=
  [("LineItems", "InvoiceID", "LineItems"),
   ("JournalLines", "JournalID", "JournalLines"),
   ("Payments", "InvoiceID", "Payments"),
   ("CreditNotes", "InvoiceID", "CreditNotes"),
   ("Addresses", "ContactID", "Addresses"),
   ("Phones", "ContactID", "Phones"),
   ("Rows", "ReportID", "Rows")]

/-- One iteration of the expansion loop (src/new_int.py lines 183-207).
`rule.1` is the column to expand, `rule.2.1` its configured parent-id field,
`rule.2.2` the child-table name suffix. -/
def expandStep (key : String) (rule : String × String × String)
    (M : Table) (children : List (String × Table)) :
    Option (Table × List (String × Table)) :=
  if M.any (fun c => c.1 == rule.1) then
    match (if M.any (fun c => c.1 == rule.2.1) then some rule.2.1
           else if M.any (fun c => c.1 == key.toLower ++ "ID") then
             some (key.toLower ++ "ID")
           else none) with
    | none => some (M, children)        -- `continue`: cannot link back, column kept
    | some pid =>
      match (if (explodePairs (getCol pid M) (getCol rule.1 M)).isEmpty then
               some children
             else
               (buildChildTable (explodePairs (getCol pid M) (getCol rule.1 M)) pid).map
                 (fun child => dictUpsert (key ++ "_" ++ rule.2.2) child children)) with
      | none => none
      | some children2 => some (dropColumn rule.1 M, children2)
  else some (M, children)

def expandLoop (key : String) :
    List (String × String × String) → Table → List (String × Table) →
    Option (Table × List (String × Table))
  | [], M, children => some (M, children)
  | r :: rs, M, children =>
    match expandStep key r M children with
    | none => none
    | some (M2, children2) => expandLoop key rs M2 children2

/-! ### JSON serialization fallback (src/new_int.py lines 210-212) -/

def jsonEscapeChar (c : Char) : String :=
  if c == '"' then "\\\""
  else if c == '\\' then "\\\\"
  else if c == '\n' then "\\n"
  else if c == '\t' then "\\t"
  else if c == '\r' then "\\r"
  else String.singleton c

/-- `json.dumps` string quoting (`ensure_ascii` escaping of non-ASCII
characters is not modelled). -/
def jsonQuote (s : String) : String :=
  "\"" ++ String.join (s.data.map jsonEscapeChar) ++ "\""

mutual

/-- `json.dumps` with the default separators. -/
def jsonDumps : JVal → String
  | .null => "null"
  | .bool true => "true"
  | .bool false => "false"
  | .int n => toString n
  | .str s => jsonQuote s
  | .arr xs => "[" ++ jsonDumpsList xs ++ "]"
  | .obj fs => "\x7b" ++ jsonDumpsFields fs ++ "\x7d"

def jsonDumpsList : List JVal → String
  | [] => ""
  | [x] => jsonDumps x
  | x :: y :: xs => jsonDumps x ++ ", " ++ jsonDumpsList (y :: xs)

def jsonDumpsFields : List (String × JVal) → String
  | [] => ""
  | [(k, v)] => jsonQuote k ++ ": " ++ jsonDumps v
  | (k, v) :: f :: fs => jsonQuote k ++ ": " ++ jsonDumps v ++ ", " ++ jsonDumpsFields (f :: fs)

end

def isCompositeCell : Cell → Bool
  | .jval (.arr _) => true
  | .jval (.obj _) => true
  | _ => false

def serializeCell : Cell → Cell
  | .jval (.arr xs) => .jval (.str (jsonDumps (.arr xs)))
  | .jval (.obj fs) => .jval (.str (jsonDumps (.obj fs)))
  | c => c

/-- A column of the fallback pass: object-dtyped columns with at least one
composite value have every composite value replaced by its JSON text. -/
def serializeColumn (cells : List Cell) : List Cell :=
  if columnIsObject cells && cells.any isCompositeCell then cells.map serializeCell
  else cells

def serializeRemaining (T : Table) : Table :=
  T.map (fun c => (c.1, serializeColumn c.2))

/-! ### `normalize_data` (src/new_int.py lines 132-221) -/

/-- Python truthiness of a decoded JSON value. -/
def isFalsy : JVal → Bool
  | .null => true
  | .bool b => !b
  | .int n => n == 0
  | .str s => s.isEmpty
  | .arr xs => xs.isEmpty
  | .obj fs => fs.isEmpty

def lookupJ (fs : List (String × JVal)) (k : String) : Option JVal :=
  (fs.find? (fun p => p.1 == k)).map (fun p => p.2)

def firstNonemptyList : List (String × JVal) → Option (List JVal)
  | [] => none
  | (_, .arr (x :: xs)) :: _ => some (x :: xs)
  | _ :: rest => firstNonemptyList rest

/-- Locating the list of items (src/new_int.py lines 140-154): the `key_name`
field, else `data['Body'][key_name]`, else the first non-empty list-valued
field, else the whole object as a single item; a list input is taken as is and
a scalar input leaves `items` as `[]`.  (The corner where `data['Body']` is a
list containing the string `key_name`, on which Python raises before the `try`
block, is not modelled.) -/
def findItems (data : JVal) (key : String) : JVal :=
  match data with
  | .obj fs =>
    match lookupJ fs key with
    | some v => v
    | none =>
      match lookupJ fs "Body" with
      | some (.obj bfs) =>
        match lookupJ bfs key with
        | some v => v
        | none =>
          match firstNonemptyList fs with
          | some xs => .arr xs
          | none => .arr [data]
      | _ =>
        match firstNonemptyList fs with
        | some xs => .arr xs
        | none => .arr [data]
  | .arr xs => .arr xs
  | _ => .arr []

/-- The records handed to `pd.json_normalize(items)`: a dict is one record, a
list must consist of dicts, anything else raises. -/
def asRecords : JVal → Option (List (List (String × JVal)))
  | .obj fs => some [fs]
  | .arr xs => xs.mapM (fun v =>
      match v with
      | .obj fs => some fs
      | _ => none)
  | _ => none

/-- `normalize_data` (src/new_int.py lines 132-221) with the expansion-rule
table as an explicit argument (the source binds it as the local constant
`expand_rules`; `normalize_data` below instantiates it).  `now` is the value
of `datetime.now()`.  Any exception inside the `try` block — a failing
`pd.json_normalize` on the items or on a nested column — yields the empty
result dict.  A child table's name `key ++ "_" ++ sfx` is strictly longer than
`key`, so the children never collide with the root entry. -/
def normalizeWithRules (rules : List (String × String × String))
    (data : JVal) (key : String) (now : Int) : List (String × Table) :=
  if isFalsy data then []
  else if isFalsy (findItems data key) then []
  else
    match asRecords (findItems data key) with
    | none => []
    | some recs =>
      if (buildTable recs).isEmpty then []
      else
        match expandLoop key rules
            (process_dates_in_df (setColumn "LastUpdated"
              (List.replicate recs.length (Cell.timestamp now))
              (buildTable recs))) [] with
        | none => []
        | some (mainT3, children) =>
          (key, serializeRemaining mainT3) :: children

/-- `normalize_data` with the source's hard-coded `expand_rules`. -/
def normalize_data (data : JVal) (key : String) (now : Int) :
    List (String × Table) :=
  normalizeWithRules expand_rules data key now

/-! ## Store sink preparation (`src/xero_api/supabase_config.py` lines 206-219)

`prepare_data_for_supabase` receives `df.to_dict('records')`: a list of dicts
whose values are DataFrame cells.  `SupaVal.missing` is a NaN/NaT/None cell,
`SupaVal.val` any other decoded value. -/

inductive SupaVal where
  | missing
  | val (v : JVal)
  deriving Repr

mutual

/-- `np.asarray` flattening of a (rectangular) nested list, as `pd.isna`
performs on array-like input. -/
def flattenArrVal : JVal → List JVal
  | .arr ys => flattenArrList ys
  | v => [v]

def flattenArrList : List JVal → List JVal
  | [] => []
  | v :: rest => flattenArrVal v ++ flattenArrList rest

end

/-- Elementwise `pd.isna` on an array element. -/
def isNaElem : JVal → Bool
  | .null => true
  | _ => false

/-- Truthiness of `pd.isna(value)` as evaluated by `if pd.isna(value) or ...`:
scalars and dicts give a plain bool; a list gives a boolean array, whose
truth value is `False` when empty, the single element's value when it has
exactly one element, and a `ValueError` otherwise. -/
def pdIsnaTruthy : SupaVal → Except String Bool
  | .missing => .ok true
  | .val .null => .ok true
  | .val (.arr xs) =>
    match flattenArrList xs with
    | [] => .ok false
    | [v] => .ok (isNaElem v)
    | _ => .error "ValueError: ambiguous truth value"
  | .val _ => .ok false

/-- One value of `prepare_data_for_supabase` (src/xero_api/supabase_config.py
lines 211-217): missing values become the native null, composite values their
JSON text, everything else passes through. -/
def prepareValue (v : SupaVal) : Except String SupaVal := do
  let isna ← pdIsnaTruthy v
  if isna then pure .missing
  else
    match v with
    | .val (.arr xs) => pure (.val (.str (jsonDumps (.arr xs))))
    | .val (.obj fs) => pure (.val (.str (jsonDumps (.obj fs))))
    | w => pure w

/-- `prepare_data_for_supabase` (src/xero_api/supabase_config.py lines
206-219). -/
def prepare_data_for_supabase (records : List (List (String × SupaVal))) :
    Except String (List (List (String × SupaVal))) :=
  records.mapM (fun record =>
    record.mapM (fun kv => do
      let v2 ← prepareValue kv.2
      pure (kv.1, v2)))

/-! ### Claim-side definitions for C6 (date-threshold) -/

/-- Claim-side parse of one cell: the `%Y-%m-%d` form of a string cell that
parses as a calendar date. -/
def dtOf : Cell → Option String
  | .jval (.str s) => parseDateISO s
  | _ => none

def cellParses (c : Cell) : Bool := (dtOf c).isSome

def isStrCell : Cell → Bool
  | .jval (.str _) => true
  | _ => false

def isStrOrMissingCell : Cell → Bool
  | .missing => true
  | .jval (.str _) => true
  | _ => false

/-- Claim-side definition, following the spec's words: the whole column
rewritten to the normalized date representation, with ambiguous or unparseable
values becoming missing. -/
def specDateRewrite (cells : List Cell) : List Cell :=
  cells.map (fun c =>
    match dtOf c with
    | some d => Cell.jval (.str d)
    | none => Cell.missing)

def headCellStr : List Cell → Option String
  | Cell.jval (JVal.str s) :: _ => some s
  | _ => none

/-- A one-string, one-missing column: its only non-missing string value parses,
so the claim's "more than half of non-missing string values" threshold is met,
yet the code compares against the row count (`len(df)`) and leaves the column
unchanged. -/
def c6Col : List Cell := [Cell.jval (.str "2025-01-02T03:04:05"), Cell.missing]

/-- The claim's example column. -/
def c6ExampleCol : List Cell :=
  [Cell.jval (.str "2025-01-01"), Cell.jval (.str "2025-02-01"),
   Cell.jval (.str "not-a-date")]

/-! ### Definitions for Claim C4

`normalize_data` stamps a `LastUpdated` column holding `datetime.now()` into
the root table, so two invocations at different times differ.  The lemmas
below isolate that stamp: every later stage of the pipeline commutes with
setting the `LastUpdated` column. -/

/-- Dropping the `LastUpdated` column from every table of a normalize
result. -/
def dropLU (r : List (String × Table)) : List (String × Table) :=
  r.map (fun p => (p.1, dropColumn "LastUpdated" p.2))

/-- The clock-independent part of `normalize_data`: everything except stamping
the `LastUpdated` column (`none` encodes the empty result dict). -/
def normCore (data : JVal) (key : String) :
    Option (Table × List (String × Table) × Nat) :=
  if isFalsy data then none
  else if isFalsy (findItems data key) then none
  else
    match asRecords (findItems data key) with
    | none => none
    | some recs =>
      if (buildTable recs).isEmpty then none
      else
        match expandLoop key expand_rules
            (process_dates_in_df (buildTable recs)) [] with
        | none => none
        | some (M3, children) =>
          some (serializeRemaining M3, children, recs.length)

/-- The document for the C4 counterexample. -/
def c4Doc : JVal := .obj [("Items", .arr [.obj [("id", .int 1)]])]

/-- Extracts the first `LastUpdated` stamp of the first table of a normalize
result. -/
def firstLUStamp (r : List (String × Table)) : Option Int :=
  match r with
  | (_, T) :: _ =>
    match getCol "LastUpdated" T with
    | Cell.timestamp v :: _ => some v
    | _ => none
  | [] => none

/-! ### Claim-side definitions for C5: a parametric family of documents whose
root item list holds any number of parent records, each carrying an `id`
value and a `lines` field that is a list of arbitrary nested objects. -/

/-- One C5 parent record: its `id` value paired with the list of nested
element objects (each element an arbitrary field list). -/
abbrev C5Parent := Int × List (List (String × JVal))

/-- The (un-flattened) field list of one parent record. -/
def c5Fields (p : C5Parent) : List (String × JVal) :=
  [("id", JVal.int p.1), ("lines", JVal.arr (p.2.map JVal.obj))]

def c5Item (p : C5Parent) : JVal := .obj (c5Fields p)

/-- The C5 document family: one root list `Items` holding the parent items. -/
def c5Doc (parents : List C5Parent) : JVal :=
  .obj [("Items", .arr (parents.map c5Item))]

/-- The records handed to `pd.json_normalize` for the root table. -/
def c5Recs (parents : List C5Parent) : List (List (String × JVal)) :=
  parents.map c5Fields

def c5IdCells (parents : List C5Parent) : List Cell :=
  parents.map (fun p => Cell.jval (.int p.1))

def c5LinesCells (parents : List C5Parent) : List Cell :=
  parents.map (fun p => Cell.jval (.arr (p.2.map JVal.obj)))

/-- The exploded `(parent id, element)` pairs, in order: every nested element
of every parent, paired with its own parent's `id` value. -/
def c5Pairs (parents : List C5Parent) : List (Cell × Cell) :=
  parents.flatMap (fun p =>
    p.2.map (fun e => (Cell.jval (.int p.1), Cell.jval (.obj e))))

/-- The child table's foreign-key column: each parent's `id` value repeated
once per nested element, aligned with the exploded rows. -/
def c5FkCells (parents : List C5Parent) : List Cell :=
  parents.flatMap (fun p => p.2.map (fun _ => Cell.jval (.int p.1)))

/-- The root table after the `LastUpdated` stamp and the date pass. -/
def c5M2 (parents : List C5Parent) (t : Int) : Table :=
  [("id", c5IdCells parents), ("lines", c5LinesCells parents),
   ("LastUpdated", List.replicate parents.length (Cell.timestamp t))]

/-- The child table the pipeline builds for the `lines` column: the nested
elements normalized, the foreign-key column written in, then the date pass. -/
def c5ChildT (parents : List C5Parent) : Table :=
  process_dates_in_df (setColumn "id" (c5FkCells parents)
    (buildTable (parents.flatMap (fun p => p.2))))

/-! ### Claims C1, C2, C10 -/

/-- C1: for every credential with `ttl_seconds > buffer_seconds` (here
`expires_in > TOKEN_REFRESH_BUFFER`), `is_token_expired` at time `now` is false
throughout `stored_at ≤ now < stored_at + expires_in - buffer`, true for every
`now` at or past `stored_at + expires_in - buffer`, and in particular true
exactly at that instant. -/
theorem c1_is_token_expired_threshold (tok : OAuthToken) (sa ei : Int)
    (hsa : tok.stored_at = some sa) (hei : tok.expires_in = some ei)
    (_hbuf : TOKEN_REFRESH_BUFFER < ei) :
    (∀ now : Int, sa ≤ now → now < sa + ei - TOKEN_REFRESH_BUFFER →
        is_token_expired (some tok) now = false)
    ∧ (∀ now : Int, sa + ei - TOKEN_REFRESH_BUFFER ≤ now →
        is_token_expired (some tok) now = true)
    ∧ is_token_expired (some tok) (sa + ei - TOKEN_REFRESH_BUFFER) = true := by
  refine ⟨?_, ?_, ?_⟩
  · intro now _ hlt
    simp only [is_token_expired, hsa, hei, decide_eq_false_iff_not]
    omega
  · intro now hge
    simp only [is_token_expired, hsa, hei, decide_eq_true_eq]
    omega
  · simp only [is_token_expired, hsa, hei, decide_eq_true_eq]
    omega

/-- Witness for C1 at a concrete credential: `stored_at = 1000`,
`expires_in = 1800`, so the threshold is `1000 + 1800 - 300 = 2500`. -/
theorem c1_is_token_expired_threshold_witness :
    is_token_expired
      (some { access_token := some "a", refresh_token := some "r",
              token_type := some "Bearer", expires_in := some 1800,
              stored_at := some 1000, expires_at := none }) 1000 = false
    ∧ is_token_expired
      (some { access_token := some "a", refresh_token := some "r",
              token_type := some "Bearer", expires_in := some 1800,
              stored_at := some 1000, expires_at := none }) 2500 = true := by
  have h := c1_is_token_expired_threshold
    { access_token := some "a", refresh_token := some "r",
      token_type := some "Bearer", expires_in := some 1800,
      stored_at := some 1000, expires_at := none }
    1000 1800 rfl rfl (by decide)
  exact ⟨h.1 1000 (by omega) (by norm_num [TOKEN_REFRESH_BUFFER]),
         h.2.1 2500 (by norm_num [TOKEN_REFRESH_BUFFER])⟩

/-- C2: for every credential carrying a refresh token, a successful
token-endpoint exchange yields a new credential whose `access_token` comes from
the response, whose `stored_at` is reset to the current time, and whose
`refresh_token` equals the old one whenever the response omits a
`refresh_token`. -/
theorem c2_refresh_preserves_refresh_token (tok : OAuthToken) (body : TokenResponse)
    (now : Int) (rt : String)
    (hrt : tok.refresh_token = some rt)
    (homit : body.refresh_token = none) :
    ∃ newTok : OAuthToken,
      refresh_xero_oauth2_token tok (.success body) now = .ok newTok
      ∧ newTok.access_token = body.access_token
      ∧ newTok.stored_at = some now
      ∧ newTok.refresh_token = some rt := by
  refine ⟨{ access_token := body.access_token, refresh_token := some rt,
            token_type := body.token_type, expires_in := body.expires_in,
            stored_at := some now,
            expires_at := some (now + body.expires_in.getD 1800) },
          ?_, rfl, rfl, rfl⟩
  simp [refresh_xero_oauth2_token, hrt, homit]

/-- Witness for C2 on a concrete credential and a response that omits
`refresh_token`. -/
theorem c2_refresh_preserves_refresh_token_witness :
    ∃ newTok : OAuthToken,
      refresh_xero_oauth2_token
        { access_token := some "old_access", refresh_token := some "old_refresh",
          token_type := some "Bearer", expires_in := some 1800,
          stored_at := some 50, expires_at := some 1850 }
        (.success { access_token := some "new_access", refresh_token := none,
                    token_type := some "Bearer", expires_in := some 1800 })
        5000 = .ok newTok
      ∧ newTok.access_token = some "new_access"
      ∧ newTok.stored_at = some 5000
      ∧ newTok.refresh_token = some "old_refresh" :=
  c2_refresh_preserves_refresh_token
    { access_token := some "old_access", refresh_token := some "old_refresh",
      token_type := some "Bearer", expires_in := some 1800,
      stored_at := some 50, expires_at := some 1850 }
    { access_token := some "new_access", refresh_token := none,
      token_type := some "Bearer", expires_in := some 1800 }
    5000 "old_refresh" rfl rfl

/-- C10: if a persisted credential with a refresh token exists and is expiring,
but the refresh exchange fails, `get_valid_token` returns `none` and the
persisted token file is left unchanged. -/
theorem c10_failed_refresh_leaves_file_unchanged (tok : OAuthToken) (rt : String)
    (status : Nat) (now : Int)
    (hrt : tok.refresh_token = some rt)
    (hexp : is_token_expired (some tok) now = true) :
    get_valid_token (some tok) (.failure status) now = (none, some tok) := by
  simp only [get_valid_token, hrt, hexp, refresh_xero_oauth2_token]
  simp [hrt]

/-- Witness for C10: a concrete expiring credential whose refresh attempt
receives an HTTP 400. -/
theorem c10_failed_refresh_leaves_file_unchanged_witness :
    get_valid_token
      (some { access_token := some "a", refresh_token := some "r",
              token_type := some "Bearer", expires_in := some 1800,
              stored_at := some 0, expires_at := some 1800 })
      (.failure 400) 4000
    = (none,
       some { access_token := some "a", refresh_token := some "r",
              token_type := some "Bearer", expires_in := some 1800,
              stored_at := some 0, expires_at := some 1800 }) :=
  c10_failed_refresh_leaves_file_unchanged
    { access_token := some "a", refresh_token := some "r",
      token_type := some "Bearer", expires_in := some 1800,
      stored_at := some 0, expires_at := some 1800 }
    "r" 400 4000 rfl (by decide)

/-! ### Claims C3, C7, C8: pagination -/

/-- Running `paginate_loop` across `gap` consecutive full pages reaches page
`page + gap` with the pages' items appended to the accumulator. -/
theorem paginate_loop_reach {α : Type} (server : Nat → PageResp α)
    (items : Nat → List α) :
    ∀ (gap fuel page : Nat) (acc : List α), gap < fuel →
    (∀ k, page ≤ k → k < page + gap →
        server k = .ok (items k) ∧ (items k).length = page_size) →
    paginate_loop server fuel page acc =
      ((paginate_loop server (fuel - gap) (page + gap)
          (acc ++ pagesConcat items page gap)).1,
       pagesTrace page gap ++
         (paginate_loop server (fuel - gap) (page + gap)
            (acc ++ pagesConcat items page gap)).2) := by
  intro gap
  induction gap with
  | zero =>
    intro fuel page acc _ _
    simp [pagesConcat, pagesTrace]
  | succ g ih =>
    intro fuel page acc hf hp
    obtain ⟨f, rfl⟩ : ∃ f, fuel = f + 1 := ⟨fuel - 1, by omega⟩
    have h0 := hp page (le_refl _) (by omega)
    have hne : (items page).isEmpty = false := by
      cases hI : items page with
      | nil => rw [hI] at h0; simp [page_size] at h0
      | cons a l => simp
    have hnl : ¬ ((items page).length < page_size) := by
      rw [h0.2]
      omega
    simp only [paginate_loop, h0.1, hne, Bool.false_eq_true, if_false, hnl]
    have hf' : g < f := by omega
    have hp' : ∀ k, page + 1 ≤ k → k < page + 1 + g →
        server k = .ok (items k) ∧ (items k).length = page_size := by
      intro k hk1 hk2
      exact hp k (by omega) (by omega)
    rw [ih f (page + 1) (acc ++ items page) hf' hp']
    have e1 : page + 1 + g = page + (g + 1) := by omega
    have e2 : f + 1 - (g + 1) = f - g := by omega
    simp [e1, e2, pagesConcat, pagesTrace, List.append_assoc]

/-- Evaluating the final, short page.  Shared final step for the
`make_paginated_api_call` theorems. -/
theorem make_paginated_stops_at_short_page {α : Type} (server : Nat → PageResp α)
    (items : Nat → List α) (n fuel : Nat) (lastItems : List α)
    (hn : 1 ≤ n) (hfuel : n ≤ fuel)
    (hfull : ∀ k, 1 ≤ k → k < n →
        server k = .ok (items k) ∧ (items k).length = page_size)
    (hlast : server n = .ok lastItems) (hshort : lastItems.length < page_size) :
    make_paginated_api_call server fuel =
      (.done (pagesConcat items 1 (n-1) ++ lastItems),
       pagesTrace 1 (n-1) ++ [.page n]) := by
  unfold make_paginated_api_call
  rw [paginate_loop_reach server items (n-1) fuel 1 [] (by omega)
      (by intro k hk1 hk2; exact hfull k hk1 (by omega))]
  have h1n : 1 + (n-1) = n := by omega
  rw [h1n]
  obtain ⟨f, hf⟩ : ∃ f, fuel - (n-1) = f + 1 := ⟨fuel - (n-1) - 1, by omega⟩
  rw [hf]
  simp only [paginate_loop, hlast, List.nil_append]
  cases hI : lastItems with
  | nil => simp
  | cons a l =>
    have : lastItems.isEmpty = false := by rw [hI]; simp
    rw [← hI]
    simp [this, hshort]

/-- Running `fetch_all_records_loop` across `gap` consecutive non-empty pages
reaches page `page + gap` with the pages' items appended to the accumulator. -/
theorem fetch_loop_reach {α : Type} (server : Nat → FetchResp α)
    (items : Nat → List α) :
    ∀ (gap fuel page : Nat) (acc : List α), gap < fuel →
    (∀ k, page ≤ k → k < page + gap →
        server k = .ok (items k) ∧ items k ≠ []) →
    fetch_all_records_loop server fuel page acc =
      ((fetch_all_records_loop server (fuel - gap) (page + gap)
          (acc ++ pagesConcat items page gap)).1,
       pagesList page gap ++
         (fetch_all_records_loop server (fuel - gap) (page + gap)
            (acc ++ pagesConcat items page gap)).2) := by
  intro gap
  induction gap with
  | zero =>
    intro fuel page acc _ _
    simp [pagesConcat, pagesList]
  | succ g ih =>
    intro fuel page acc hf hp
    obtain ⟨f, rfl⟩ : ∃ f, fuel = f + 1 := ⟨fuel - 1, by omega⟩
    have h0 := hp page (le_refl _) (by omega)
    have hne : (items page).isEmpty = false := by
      cases hI : items page with
      | nil => exact absurd hI h0.2
      | cons a l => simp
    simp only [fetch_all_records_loop, h0.1, hne, Bool.false_eq_true, if_false]
    have hp' : ∀ k, page + 1 ≤ k → k < page + 1 + g →
        server k = .ok (items k) ∧ items k ≠ [] := by
      intro k hk1 hk2
      exact hp k (by omega) (by omega)
    rw [ih f (page + 1) (acc ++ items page) (by omega) hp']
    have e1 : page + 1 + g = page + (g + 1) := by omega
    have e2 : f + 1 - (g + 1) = f - g := by omega
    simp [e1, e2, pagesConcat, pagesList, List.append_assoc]

/-- C3, counterexample: the repository has two paginated fetchers, and
`fetch_all_records` (src/pipeline.py) does not stop at a page with fewer items
than the page size.  With page 1 full (100 items) and page 2 holding one item,
the claim predicts a stop after page 2 with pages 1-2 concatenated; the code
requests pages 3 and 4 as well and also returns page 3's item. -/
theorem c3_counterexample_fetch_all_records :
    ¬ (fetch_all_records c3FetchSrv 10 =
        (some (List.replicate 100 0 ++ [5]), [1, 2])) := by
  decide

/-- C3 (amended): `make_paginated_api_call` (src/new_int.py) behaves exactly as
the claim states — pages are requested from 1 upward, the loop stops at the
first page with fewer than `page_size` items (zero included), and the item
lists are concatenated in server order.  `fetch_all_records` (src/pipeline.py)
increments the same way and concatenates in order, but stops only at the first
page with zero items (or an error), continuing past short pages. -/
theorem c3_pagination_stops (α : Type) :
    (∀ (server : Nat → PageResp α) (items : Nat → List α) (n fuel : Nat)
        (lastItems : List α),
      1 ≤ n → n ≤ fuel →
      (∀ k, 1 ≤ k → k < n →
          server k = .ok (items k) ∧ (items k).length = page_size) →
      server n = .ok lastItems → lastItems.length < page_size →
      make_paginated_api_call server fuel =
        (.done (pagesConcat items 1 (n-1) ++ lastItems),
         pagesTrace 1 (n-1) ++ [.page n]))
    ∧ (∀ (server : Nat → FetchResp α) (items : Nat → List α) (n fuel : Nat),
      1 ≤ n → n ≤ fuel →
      (∀ k, 1 ≤ k → k < n → server k = .ok (items k) ∧ items k ≠ []) →
      server n = .ok [] →
      fetch_all_records server fuel =
        (some (pagesConcat items 1 (n-1)), pagesList 1 (n-1) ++ [n])) := by
  constructor
  · intro server items n fuel lastItems hn hfuel hfull hlast hshort
    exact make_paginated_stops_at_short_page server items n fuel lastItems
      hn hfuel hfull hlast hshort
  · intro server items n fuel hn hfuel hfull hlast
    unfold fetch_all_records
    rw [fetch_loop_reach server items (n-1) fuel 1 [] (by omega)
        (by intro k hk1 hk2; exact hfull k hk1 (by omega))]
    have h1n : 1 + (n-1) = n := by omega
    rw [h1n]
    obtain ⟨f, hf⟩ : ∃ f, fuel - (n-1) = f + 1 := ⟨fuel - (n-1) - 1, by omega⟩
    rw [hf]
    simp [fetch_all_records_loop, hlast]

/-- Witness for C3: both halves applied to concrete servers. -/
theorem c3_pagination_stops_witness :
    make_paginated_api_call c3PageSrv 2 =
      (.done (List.replicate 100 0 ++ [7]), [.page 1, .sleepMs 500, .page 2])
    ∧ fetch_all_records c3FetchSrv2 3 = (some [4, 5], [1, 2, 3]) := by
  constructor
  · have h := (c3_pagination_stops Nat).1 c3PageSrv
      (fun _ => List.replicate 100 0) 2 2 [7]
      (by omega) (by omega)
      (by intro k hk1 hk2
          have hk : k = 1 := by omega
          subst hk
          exact ⟨rfl, by simp [page_size]⟩)
      rfl (by simp [page_size])
    rw [h]
    rfl
  · have h := (c3_pagination_stops Nat).2 c3FetchSrv2
      (fun k => if k = 1 then [4] else [5]) 3 3
      (by omega) (by omega)
      (by intro k hk1 hk2
          interval_cases k
          · exact ⟨rfl, by simp⟩
          · exact ⟨rfl, by simp⟩)
      rfl
    rw [h]
    rfl

/-! ### Claim C7 -/

/-- C7: on an HTTP 429 for page `n`, `make_paginated_api_call` sleeps for the
numeric `Retry-After` value (default 5 s when the header is absent) and
re-requests the same page `n` with nothing accumulated or incremented; and if a
page rate-limits forever the loop never terminates (every fuel bound is
exhausted). -/
theorem c7_rate_limit_retries_same_page {α : Type} (server : Nat → PageResp α)
    (page : Nat) (ra : Option Nat)
    (h : server page = .errorWithResponse 429 ra) :
    (∀ (fuel : Nat) (acc : List α),
        paginate_loop server (fuel+1) page acc =
          ((paginate_loop server fuel page acc).1,
           .page page :: .sleepMs (ra.getD 5 * 1000) ::
             (paginate_loop server fuel page acc).2))
    ∧ ((∀ p, ∃ r, server p = PageResp.errorWithResponse 429 r) →
        ∀ (fuel p : Nat) (acc : List α),
          (paginate_loop server fuel p acc).1 = LoopResult.outOfFuel) := by
  constructor
  · intro fuel acc
    simp only [paginate_loop, h]
    rfl
  · intro hall fuel
    induction fuel with
    | zero =>
      intro p acc
      simp [paginate_loop]
    | succ f ih =>
      intro p acc
      obtain ⟨r, hr⟩ := hall p
      simp only [paginate_loop, hr]
      exact ih p acc

/-- Witness for C7: one retry step sleeps 3000 ms and re-requests page 1;
five fuel units still produce no result. -/
theorem c7_rate_limit_retries_same_page_witness :
    paginate_loop c7Srv 1 1 [] =
      ((paginate_loop c7Srv 0 1 []).1,
       .page 1 :: .sleepMs 3000 :: (paginate_loop c7Srv 0 1 []).2)
    ∧ (paginate_loop c7Srv 5 1 []).1 = LoopResult.outOfFuel := by
  have h := c7_rate_limit_retries_same_page c7Srv 1 (some 3) rfl
  exact ⟨h.1 0 [], h.2 (fun p => ⟨some 3, rfl⟩) 5 1 []⟩

/-! ### Claim C8 -/

/-- C8, counterexample: the claim predicts that a transport error on page 1
makes the call return the (empty) accumulation as a normal non-error result;
for a requests exception carrying no HTTP response (a connection-level
failure) the handler instead dereferences `e.response.status_code` with
`e.response = None` and the call raises. -/
theorem c8_counterexample_connection_error :
    make_paginated_api_call c8ConnSrv 5 = (LoopResult.raised, [FetchEvent.page 1])
    ∧ make_paginated_api_call c8ConnSrv 5 ≠ (LoopResult.done [], [FetchEvent.page 1]) := by
  decide

/-- C8 (amended): after full pages `1..n-1`, a transport error on page `n`
that carries an HTTP response with a non-429 status, or any non-requests
exception, terminates the loop and returns, as a normal result, exactly the
items accumulated from pages `1..n-1`; a requests exception carrying no HTTP
response instead escapes as an `AttributeError` raised by the unguarded
`e.response.status_code` check. -/
theorem c8_transport_error_partial_result {α : Type} (server : Nat → PageResp α)
    (items : Nat → List α) (n fuel : Nat)
    (hn : 1 ≤ n) (hfuel : n ≤ fuel)
    (hfull : ∀ k, 1 ≤ k → k < n →
        server k = .ok (items k) ∧ (items k).length = page_size) :
    (∀ status ra, status ≠ 429 → server n = .errorWithResponse status ra →
        make_paginated_api_call server fuel =
          (.done (pagesConcat items 1 (n-1)), pagesTrace 1 (n-1) ++ [.page n]))
    ∧ (server n = .otherException →
        make_paginated_api_call server fuel =
          (.done (pagesConcat items 1 (n-1)), pagesTrace 1 (n-1) ++ [.page n]))
    ∧ (server n = .errorNoResponse →
        make_paginated_api_call server fuel =
          (.raised, pagesTrace 1 (n-1) ++ [.page n])) := by
  refine ⟨?_, ?_, ?_⟩
  · intro status ra hst herr
    unfold make_paginated_api_call
    rw [paginate_loop_reach server items (n-1) fuel 1 [] (by omega)
        (by intro k hk1 hk2; exact hfull k hk1 (by omega))]
    have h1n : 1 + (n-1) = n := by omega
    rw [h1n]
    obtain ⟨f, hf⟩ : ∃ f, fuel - (n-1) = f + 1 := ⟨fuel - (n-1) - 1, by omega⟩
    rw [hf]
    have hb : (status == 429) = false := by
      simp only [beq_eq_false_iff_ne, ne_eq]
      exact hst
    simp [paginate_loop, herr, hb]
  · intro herr
    unfold make_paginated_api_call
    rw [paginate_loop_reach server items (n-1) fuel 1 [] (by omega)
        (by intro k hk1 hk2; exact hfull k hk1 (by omega))]
    have h1n : 1 + (n-1) = n := by omega
    rw [h1n]
    obtain ⟨f, hf⟩ : ∃ f, fuel - (n-1) = f + 1 := ⟨fuel - (n-1) - 1, by omega⟩
    rw [hf]
    simp [paginate_loop, herr]
  · intro herr
    unfold make_paginated_api_call
    rw [paginate_loop_reach server items (n-1) fuel 1 [] (by omega)
        (by intro k hk1 hk2; exact hfull k hk1 (by omega))]
    have h1n : 1 + (n-1) = n := by omega
    rw [h1n]
    obtain ⟨f, hf⟩ : ∃ f, fuel - (n-1) = f + 1 := ⟨fuel - (n-1) - 1, by omega⟩
    rw [hf]
    simp [paginate_loop, herr]

/-- Witness for C8: after a full page 1, an HTTP 500 on page 2 yields page 1's
items as a normal result, while a response-less requests exception on page 2
raises. -/
theorem c8_transport_error_partial_result_witness :
    make_paginated_api_call c8Srv 2 =
      (.done (List.replicate 100 2), [.page 1, .sleepMs 500, .page 2])
    ∧ make_paginated_api_call c8RaiseSrv 2 =
      (.raised, [.page 1, .sleepMs 500, .page 2]) := by
  constructor
  · have h := (c8_transport_error_partial_result c8Srv
      (fun _ => List.replicate 100 2) 2 2
      (by omega) (by omega)
      (by intro k hk1 hk2
          have hk : k = 1 := by omega
          subst hk
          exact ⟨rfl, by simp [page_size]⟩)).1 500 none (by omega) rfl
    rw [h]
    rfl
  · have h := (c8_transport_error_partial_result c8RaiseSrv
      (fun _ => List.replicate 100 2) 2 2
      (by omega) (by omega)
      (by intro k hk1 hk2
          have hk : k = 1 := by omega
          subst hk
          exact ⟨rfl, by simp [page_size]⟩)).2.2 rfl
    rw [h]
    rfl

/-! ### Claim C9 -/

/-- C9, code bug: `prepare_data_for_supabase` converts missing values to the
native null and serializes dict values to JSON text as the claim states (first
conjunct), but the guard `if pd.isna(value)` evaluates the truth value of a
boolean *array* whenever `value` is a list of two or more elements, raising
`ValueError` before the `isinstance(value, (dict, list))` branch meant to
serialize it can run (second conjunct). -/
theorem c9_prepare_data_multielement_list_raises :
    prepare_data_for_supabase
      [[("a", SupaVal.missing),
        ("b", SupaVal.val (.obj [("x", .int 1)])),
        ("c", SupaVal.val (.int 5))]]
      = .ok [[("a", SupaVal.missing),
              ("b", SupaVal.val (.str "\x7b\"x\": 1\x7d")),
              ("c", SupaVal.val (.int 5))]]
    ∧ prepare_data_for_supabase [[("k", SupaVal.val (.arr [.int 1, .int 2]))]]
      = .error "ValueError: ambiguous truth value" := by
  constructor <;> rfl

/-! ### Claim C6 -/

/-- C6, counterexample: on `c6Col` every non-missing string value parses
(1 of 1, exceeding one half), but the column is not rewritten — the code's
denominator is the row count (2), and 1/2 does not exceed 0.5. -/
theorem c6_counterexample_missing_denominator :
    2 * (c6Col.countP cellParses) > c6Col.countP isStrCell
    ∧ processColumn c6Col ≠ specDateRewrite c6Col := by
  constructor
  · decide
  · intro h
    have h2 := congrArg headCellStr h
    rw [show headCellStr (processColumn c6Col) = some "2025-01-02T03:04:05" from rfl,
        show headCellStr (specDateRewrite c6Col) = some "2025-01-02" from rfl] at h2
    exact absurd h2 (by decide)

theorem mapM_toDatetime_str_missing (cells : List Cell)
    (h : ∀ c ∈ cells, isStrOrMissingCell c = true) :
    cells.mapM toDatetimeCell = some (cells.map dtOf) := by
  induction cells with
  | nil => rfl
  | cons c cs ih =>
    have hc := h c (by simp)
    have ih2 := ih (fun x hx => h x (by simp [hx]))
    rw [List.mapM_cons, ih2]
    cases c with
    | missing => rfl
    | timestamp t => simp [isStrOrMissingCell] at hc
    | jval v =>
      cases v with
      | str s => rfl
      | null => simp [isStrOrMissingCell] at hc
      | bool b => simp [isStrOrMissingCell] at hc
      | int n => simp [isStrOrMissingCell] at hc
      | arr xs => simp [isStrOrMissingCell] at hc
      | obj fs => simp [isStrOrMissingCell] at hc

theorem countP_isSome_map_dtOf (cells : List Cell) :
    (cells.map dtOf).countP (fun o => o.isSome) = cells.countP cellParses := by
  rw [List.countP_map]
  rfl

theorem columnIsObject_of_strCell (cells : List Cell) (c : Cell)
    (hmem : c ∈ cells) (hs : isStrCell c = true) :
    columnIsObject cells = true := by
  have hk : CKind.kStr ∈ cells.filterMap cellKind := by
    apply List.mem_filterMap.mpr
    refine ⟨c, hmem, ?_⟩
    cases c with
    | jval v =>
      cases v with
      | str s => rfl
      | null => simp [isStrCell] at hs
      | bool b => simp [isStrCell] at hs
      | int n => simp [isStrCell] at hs
      | arr xs => simp [isStrCell] at hs
      | obj fs => simp [isStrCell] at hs
    | missing => simp [isStrCell] at hs
    | timestamp t => simp [isStrCell] at hs
  have hA : (cells.filterMap cellKind).any
      (fun k => k == CKind.kStr || k == CKind.kComp) = true := by
    apply List.any_eq_true.mpr
    exact ⟨CKind.kStr, hk, by decide⟩
  simp [columnIsObject, hA]

/-- C6 (amended): for a column of strings and missing values, the column is
rewritten iff the number of parseable values exceeds half of the total row
count `len(df)` — missing rows counted in the denominator, matching
`temp_series.count() / len(df) > 0.5` — with parseable strings replaced by
their `%Y-%m-%d` form and everything else by missing; at or below the
threshold the column is left unchanged. -/
theorem c6_date_rewrite_threshold (cells : List Cell)
    (hsm : ∀ c ∈ cells, isStrOrMissingCell c = true) :
    (2 * cells.countP cellParses > cells.length →
        processColumn cells = specDateRewrite cells)
    ∧ (¬ (2 * cells.countP cellParses > cells.length) →
        processColumn cells = cells) := by
  have hmapm := mapM_toDatetime_str_missing cells hsm
  constructor
  · intro hthr
    have hex : ∃ c ∈ cells, cellParses c = true := by
      by_contra hno
      push_neg at hno
      have hz : cells.countP cellParses = 0 := by
        apply List.countP_eq_zero.mpr
        intro a ha
        exact (hno a ha)
      omega
    obtain ⟨c, hmem, hp⟩ := hex
    have hstr : isStrCell c = true := by
      cases c with
      | jval v =>
        cases v with
        | str s => rfl
        | null => simp [cellParses, dtOf] at hp
        | bool b => simp [cellParses, dtOf] at hp
        | int n => simp [cellParses, dtOf] at hp
        | arr xs => simp [cellParses, dtOf] at hp
        | obj fs => simp [cellParses, dtOf] at hp
      | missing => simp [cellParses, dtOf] at hp
      | timestamp t => simp [cellParses, dtOf] at hp
    have hobj := columnIsObject_of_strCell cells c hmem hstr
    simp only [processColumn, hobj, if_true, hmapm]
    have hc2 : 2 * (cells.map dtOf).countP (fun o => o.isSome) > cells.length := by
      rw [countP_isSome_map_dtOf]
      exact hthr
    rw [if_pos hc2, List.map_map]
    rfl
  · intro hthr
    by_cases hobj : columnIsObject cells = true
    · simp only [processColumn, hobj, if_true, hmapm]
      have hc2 : ¬ (2 * (cells.map dtOf).countP (fun o => o.isSome) > cells.length) := by
        rw [countP_isSome_map_dtOf]
        exact hthr
      rw [if_neg hc2]
    · simp only [processColumn, Bool.not_eq_true] at hobj ⊢
      rw [hobj]
      simp

/-- Witness for C6: on `["2025-01-01", "2025-02-01", "not-a-date"]` the first
two values normalize to themselves and the third becomes missing (2 of 3
parses, exceeding one half of the rows). -/
theorem c6_date_rewrite_threshold_witness :
    processColumn c6ExampleCol =
      [Cell.jval (.str "2025-01-01"), Cell.jval (.str "2025-02-01"),
       Cell.missing] := by
  have h := (c6_date_rewrite_threshold c6ExampleCol (by decide)).1 (by decide)
  rw [h]
  rfl

/-! ### Claim C5 -/

/-- Staged evaluation of `normalizeWithRules`: assembling the result from the
values of its intermediate stages. -/
theorem normalizeWithRules_eq (rules : List (String × String × String))
    (data : JVal) (key : String) (now : Int)
    (recs : List (List (String × JVal))) (M2 M3 : Table)
    (children : List (String × Table))
    (h0 : isFalsy data = false)
    (h1 : isFalsy (findItems data key) = false)
    (h2 : asRecords (findItems data key) = some recs)
    (h3 : buildTable recs ≠ [])
    (h4 : process_dates_in_df (setColumn "LastUpdated"
            (List.replicate recs.length (Cell.timestamp now))
            (buildTable recs)) = M2)
    (h5 : expandLoop key rules M2 [] = some (M3, children)) :
    normalizeWithRules rules data key now = (key, serializeRemaining M3) :: children := by
  rw [normalizeWithRules]
  simp only [h0, h1, h2, h4, h5, Bool.false_eq_true, if_false, List.isEmpty_eq_true]
  simp [h3, h4, h5]

/-! ### Claim C4 -/

theorem any_congr_mem {α : Type} (l : List α) (p q : α → Bool)
    (h : ∀ a ∈ l, p a = q a) : l.any p = l.any q := by
  induction l with
  | nil => rfl
  | cons a l ih =>
    simp only [List.any_cons]
    rw [h a (by simp), ih (fun x hx => h x (by simp [hx]))]

theorem setColumn_any_name (n m : String) (cs : List Cell) (T : Table)
    (h : n ≠ m) :
    (setColumn n cs T).any (fun c => c.1 == m) = T.any (fun c => c.1 == m) := by
  unfold setColumn
  by_cases hT : T.any (fun c => c.1 == n) = true
  · rw [if_pos hT, List.any_map]
    apply any_congr_mem
    intro a _
    by_cases ha : (a.1 == n) = true
    · have ha2 : a.1 = n := by simpa using ha
      simp [Function.comp, ha, ha2, h]
    · simp [Function.comp, ha]
  · rw [if_neg hT, List.any_append]
    simp [h]

theorem getCol_map_keep (n m : String) (cs : List Cell) (T : Table) (h : n ≠ m) :
    getCol m (T.map (fun c => if c.1 == n then (n, cs) else c)) = getCol m T := by
  induction T with
  | nil => rfl
  | cons a l ih =>
    rw [List.map_cons]
    by_cases han : a.1 = n
    · have h1 : (if (a.1 == n) = true then (n, cs) else a) = (n, cs) := by
        simp [han]
      rw [h1]
      unfold getCol
      rw [List.find?_cons_of_neg _ (by simp only [beq_iff_eq]; exact h),
          List.find?_cons_of_neg _ (by simp only [beq_iff_eq]; rw [han]; exact h)]
      exact ih
    · have h1 : (if (a.1 == n) = true then (n, cs) else a) = a := by
        simp [han]
      rw [h1]
      by_cases ham : a.1 = m
      · unfold getCol
        rw [List.find?_cons_of_pos _ (by simp only [beq_iff_eq]; exact ham),
            List.find?_cons_of_pos _ (by simp only [beq_iff_eq]; exact ham)]
      · unfold getCol
        rw [List.find?_cons_of_neg _ (by simp only [beq_iff_eq]; exact ham),
            List.find?_cons_of_neg _ (by simp only [beq_iff_eq]; exact ham)]
        exact ih

theorem getCol_setColumn (n m : String) (cs : List Cell) (T : Table)
    (h : n ≠ m) :
    getCol m (setColumn n cs T) = getCol m T := by
  unfold setColumn
  by_cases hT : T.any (fun c => c.1 == n) = true
  · rw [if_pos hT]
    exact getCol_map_keep n m cs T h
  · rw [if_neg hT]
    unfold getCol
    rw [List.find?_append]
    have h2 : List.find? (fun c => c.1 == m) [(n, cs)] = none := by
      rw [List.find?_cons_of_neg _ (by simp only [beq_iff_eq]; exact h)]
      rfl
    rw [h2]
    cases List.find? (fun c => c.1 == m) T <;> rfl

theorem dropColumn_any_name (c n : String) (T : Table) (h : c ≠ n) :
    (dropColumn c T).any (fun x => x.1 == n) = T.any (fun x => x.1 == n) := by
  induction T with
  | nil => rfl
  | cons a l ih =>
    unfold dropColumn
    rw [List.filter_cons]
    by_cases hac : a.1 = c
    · have h1 : (!(a.1 == c)) = false := by simp [hac]
      have h2 : (a.1 == n) = false := by
        simp only [beq_eq_false_iff_ne, ne_eq, hac]
        exact fun he => h he
      rw [h1, if_neg (by simp)]
      rw [List.any_cons, h2, Bool.false_or]
      exact ih
    · have h1 : (!(a.1 == c)) = true := by
        simp only [Bool.not_eq_true', beq_eq_false_iff_ne, ne_eq]
        exact hac
      rw [h1, if_pos rfl, List.any_cons, List.any_cons]
      unfold dropColumn at ih
      rw [ih]

theorem filter_drop_map_replace (n c : String) (cs : List Cell) (T : Table)
    (h : c ≠ n) :
    (T.map (fun x => if x.1 == n then (n, cs) else x)).filter (fun x => !(x.1 == c))
      = (T.filter (fun x => !(x.1 == c))).map
          (fun x => if x.1 == n then (n, cs) else x) := by
  induction T with
  | nil => rfl
  | cons a l ih =>
    rw [List.map_cons, List.filter_cons, List.filter_cons]
    by_cases han : a.1 = n
    · have h1 : (if (a.1 == n) = true then (n, cs) else a) = (n, cs) := by
        simp [han]
      have hkeep1 : (!(((n, cs) : String × List Cell).1 == c)) = true := by
        simp only [Bool.not_eq_true', beq_eq_false_iff_ne, ne_eq]
        exact fun he => h he.symm
      have hkeep2 : (!(a.1 == c)) = true := by
        simp only [Bool.not_eq_true', beq_eq_false_iff_ne, ne_eq, han]
        exact fun he => h he.symm
      rw [h1, hkeep1, hkeep2, if_pos rfl, if_pos rfl, List.map_cons, h1, ih]
    · have h1 : (if (a.1 == n) = true then (n, cs) else a) = a := by
        simp [han]
      rw [h1]
      by_cases hac : a.1 = c
      · have h2 : (!(a.1 == c)) = false := by simp [hac]
        rw [h2, if_neg (by simp), if_neg (by simp), ih]
      · have h2 : (!(a.1 == c)) = true := by
          simp only [Bool.not_eq_true', beq_eq_false_iff_ne, ne_eq]
          exact hac
        rw [h2, if_pos rfl, if_pos rfl, List.map_cons, h1, ih]

theorem dropColumn_setColumn (n c : String) (cs : List Cell) (T : Table)
    (h : c ≠ n) :
    dropColumn c (setColumn n cs T) = setColumn n cs (dropColumn c T) := by
  unfold setColumn
  rw [dropColumn_any_name c n T h]
  by_cases hT : T.any (fun x => x.1 == n) = true
  · rw [if_pos hT, if_pos hT]
    exact filter_drop_map_replace n c cs T h
  · rw [if_neg hT, if_neg hT]
    unfold dropColumn
    rw [List.filter_append]
    have h2 : List.filter (fun x => !(x.1 == c)) [(n, cs)] = [(n, cs)] := by
      rw [List.filter_cons]
      rw [if_pos]
      · rfl
      · simp only [Bool.not_eq_true', beq_eq_false_iff_ne, ne_eq]
        exact fun he => h he.symm
    rw [h2]

theorem filter_drop_map_replace_same (n : String) (cs : List Cell) (T : Table) :
    (T.map (fun x => if x.1 == n then (n, cs) else x)).filter (fun x => !(x.1 == n))
      = T.filter (fun x => !(x.1 == n)) := by
  induction T with
  | nil => rfl
  | cons a l ih =>
    rw [List.map_cons, List.filter_cons, List.filter_cons]
    by_cases han : a.1 = n
    · have h1 : (if (a.1 == n) = true then (n, cs) else a) = (n, cs) := by
        simp [han]
      have h2 : (!(((n, cs) : String × List Cell).1 == n)) = false := by simp
      have h3 : (!(a.1 == n)) = false := by simp [han]
      rw [h1, h2, h3, if_neg (by simp), if_neg (by simp)]
      exact ih
    · have h1 : (if (a.1 == n) = true then (n, cs) else a) = a := by
        simp [han]
      have h2 : (!(a.1 == n)) = true := by
        simp only [Bool.not_eq_true', beq_eq_false_iff_ne, ne_eq]
        exact han
      rw [h1, h2, if_pos rfl, if_pos rfl, ih]

theorem dropColumn_setColumn_same (n : String) (cs : List Cell) (T : Table) :
    dropColumn n (setColumn n cs T) = dropColumn n T := by
  unfold setColumn
  by_cases hT : T.any (fun x => x.1 == n) = true
  · rw [if_pos hT]
    exact filter_drop_map_replace_same n cs T
  · rw [if_neg hT]
    unfold dropColumn
    rw [List.filter_append]
    have h2 : List.filter (fun x => !(x.1 == n)) [(n, cs)] = [] := by
      rw [List.filter_cons, if_neg (by simp)]
      rfl
    rw [h2, List.append_nil]

theorem mapCols_setColumn (g : List Cell → List Cell) (n : String)
    (cs : List Cell) (T : Table) :
    (setColumn n cs T).map (fun c => (c.1, g c.2)) =
      setColumn n (g cs) (T.map (fun c => (c.1, g c.2))) := by
  unfold setColumn
  have hany : (T.map (fun c => (c.1, g c.2))).any (fun c => c.1 == n)
      = T.any (fun c => c.1 == n) := by
    rw [List.any_map]
    apply any_congr_mem
    intro a _
    rfl
  rw [hany]
  by_cases hT : T.any (fun c => c.1 == n) = true
  · rw [if_pos hT, if_pos hT, List.map_map, List.map_map]
    apply List.map_congr_left
    intro a _
    by_cases han : (a.1 == n) = true
    · simp [Function.comp, han]
    · simp [Function.comp, han]
  · rw [if_neg hT, if_neg hT, List.map_append]
    rfl

theorem filterMap_cellKind_replicate (k : Nat) (t : Int) :
    (List.replicate k (Cell.timestamp t)).filterMap cellKind
      = List.replicate k CKind.kTime := by
  induction k with
  | zero => rfl
  | succ k ih =>
    rw [List.replicate_succ, List.replicate_succ, List.filterMap_cons]
    simp [cellKind, ih]

theorem any_replicate_kTime_strComp (k : Nat) :
    (List.replicate k CKind.kTime).any
      (fun x => x == CKind.kStr || x == CKind.kComp) = false := by
  induction k with
  | zero => rfl
  | succ k ih =>
    rw [List.replicate_succ, List.any_cons, ih]
    rfl

theorem any_replicate_kTime_ne (k : Nat) :
    (List.replicate k CKind.kTime).any (fun x => !(x == CKind.kTime)) = false := by
  induction k with
  | zero => rfl
  | succ k ih =>
    rw [List.replicate_succ, List.any_cons, ih]
    rfl

theorem any_replicate_kTime_bool (k : Nat) :
    (List.replicate k CKind.kTime).any (fun x => x == CKind.kBool) = false := by
  induction k with
  | zero => rfl
  | succ k ih =>
    rw [List.replicate_succ, List.any_cons, ih]
    rfl

theorem any_replicate_timestamp_missing (k : Nat) (t : Int) :
    (List.replicate k (Cell.timestamp t)).any isMissingCell = false := by
  induction k with
  | zero => rfl
  | succ k ih =>
    rw [List.replicate_succ, List.any_cons, ih]
    rfl

theorem columnIsObject_replicate_timestamp (k : Nat) (t : Int) :
    columnIsObject (List.replicate k (Cell.timestamp t)) = false := by
  simp only [columnIsObject, filterMap_cellKind_replicate]
  rw [any_replicate_kTime_strComp, any_replicate_kTime_bool,
      any_replicate_timestamp_missing]
  cases k with
  | zero => rfl
  | succ k =>
    rw [List.replicate_succ]
    simp only [Bool.false_or, Bool.false_and, Bool.or_false]
    exact any_replicate_kTime_ne k

theorem processColumn_replicate_timestamp (k : Nat) (t : Int) :
    processColumn (List.replicate k (Cell.timestamp t))
      = List.replicate k (Cell.timestamp t) := by
  unfold processColumn
  rw [columnIsObject_replicate_timestamp]
  rfl

theorem serializeColumn_replicate_timestamp (k : Nat) (t : Int) :
    serializeColumn (List.replicate k (Cell.timestamp t))
      = List.replicate k (Cell.timestamp t) := by
  unfold serializeColumn
  rw [columnIsObject_replicate_timestamp]
  rfl

/-- The date pass commutes with stamping `LastUpdated`: an all-timestamp
column is not object-dtyped, so the pass leaves it alone. -/
theorem process_dates_setColumn_timestamp (k : Nat) (t : Int) (T : Table) :
    process_dates_in_df (setColumn "LastUpdated"
        (List.replicate k (Cell.timestamp t)) T)
      = setColumn "LastUpdated" (List.replicate k (Cell.timestamp t))
          (process_dates_in_df T) := by
  unfold process_dates_in_df
  rw [mapCols_setColumn processColumn "LastUpdated" _ T,
      processColumn_replicate_timestamp]

/-- The serialization fallback likewise leaves the `LastUpdated` column
alone. -/
theorem serialize_setColumn_timestamp (k : Nat) (t : Int) (T : Table) :
    serializeRemaining (setColumn "LastUpdated"
        (List.replicate k (Cell.timestamp t)) T)
      = setColumn "LastUpdated" (List.replicate k (Cell.timestamp t))
          (serializeRemaining T) := by
  unfold serializeRemaining
  rw [mapCols_setColumn serializeColumn "LastUpdated" _ T,
      serializeColumn_replicate_timestamp]

/-- No fallback parent-id name `s ++ "ID"` can be the `LastUpdated` column:
the final characters differ. -/
theorem append_ID_ne_LastUpdated (s : String) : s ++ "ID" ≠ "LastUpdated" := by
  intro h
  have hd : (s ++ "ID").data = "LastUpdated".data := congrArg String.data h
  rw [String.data_append] at hd
  have h2 := congrArg List.getLast? hd
  rw [List.getLast?_append_of_ne_nil s.data (by decide)] at h2
  exact absurd h2 (by decide)

/-- One expansion step commutes with stamping `LastUpdated`, since neither the
expanded column nor any candidate parent-id column can be named
`LastUpdated`. -/
theorem expandStep_setColumn (key : String) (rule : String × String × String)
    (cs : List Cell) (M : Table) (children : List (String × Table))
    (h1 : rule.1 ≠ "LastUpdated") (h2 : rule.2.1 ≠ "LastUpdated") :
    expandStep key rule (setColumn "LastUpdated" cs M) children =
      (expandStep key rule M children).map
        (fun p => (setColumn "LastUpdated" cs p.1, p.2)) := by
  have g1 : getCol rule.2.1 (setColumn "LastUpdated" cs M) = getCol rule.2.1 M :=
    getCol_setColumn "LastUpdated" rule.2.1 cs M (fun he => h2 he.symm)
  have g2 : getCol rule.1 (setColumn "LastUpdated" cs M) = getCol rule.1 M :=
    getCol_setColumn "LastUpdated" rule.1 cs M (fun he => h1 he.symm)
  have g3 : getCol (key.toLower ++ "ID") (setColumn "LastUpdated" cs M)
      = getCol (key.toLower ++ "ID") M :=
    getCol_setColumn "LastUpdated" (key.toLower ++ "ID") cs M
      (fun he => (append_ID_ne_LastUpdated key.toLower) he.symm)
  have g4 : dropColumn rule.1 (setColumn "LastUpdated" cs M)
      = setColumn "LastUpdated" cs (dropColumn rule.1 M) :=
    dropColumn_setColumn "LastUpdated" rule.1 cs M h1
  unfold expandStep
  rw [setColumn_any_name "LastUpdated" rule.1 cs M (fun he => h1 he.symm),
      setColumn_any_name "LastUpdated" rule.2.1 cs M (fun he => h2 he.symm),
      setColumn_any_name "LastUpdated" (key.toLower ++ "ID") cs M
        (fun he => (append_ID_ne_LastUpdated key.toLower) he.symm)]
  by_cases hcol : M.any (fun c => c.1 == rule.1) = true
  · by_cases hpidA : M.any (fun c => c.1 == rule.2.1) = true
    · simp only [hcol, hpidA, if_true, g1, g2, g4]
      cases hX : (if (explodePairs (getCol rule.2.1 M) (getCol rule.1 M)).isEmpty then
               some children
             else
               (buildChildTable (explodePairs (getCol rule.2.1 M) (getCol rule.1 M))
                   rule.2.1).map
                 (fun child => dictUpsert (key ++ "_" ++ rule.2.2) child children)) with
      | none => rfl
      | some ch2 => rfl
    · rw [Bool.not_eq_true] at hpidA
      by_cases hpidB : M.any (fun c => c.1 == key.toLower ++ "ID") = true
      · simp only [hcol, hpidA, hpidB, if_true, Bool.false_eq_true, if_false,
                   g2, g3, g4]
        cases hX : (if (explodePairs (getCol (key.toLower ++ "ID") M)
                (getCol rule.1 M)).isEmpty then
               some children
             else
               (buildChildTable (explodePairs (getCol (key.toLower ++ "ID") M)
                   (getCol rule.1 M)) (key.toLower ++ "ID")).map
                 (fun child => dictUpsert (key ++ "_" ++ rule.2.2) child children)) with
        | none => rfl
        | some ch2 => rfl
      · rw [Bool.not_eq_true] at hpidB
        simp only [hcol, hpidA, hpidB, if_true, Bool.false_eq_true, if_false]
        rfl
  · rw [Bool.not_eq_true] at hcol
    simp only [hcol, Bool.false_eq_true, if_false]
    rfl

/-- The whole expansion loop commutes with the `LastUpdated` stamp. -/
theorem expandLoop_setColumn (key : String)
    (rules : List (String × String × String)) (cs : List Cell) (M : Table)
    (children : List (String × Table))
    (hr : ∀ r ∈ rules, r.1 ≠ "LastUpdated" ∧ r.2.1 ≠ "LastUpdated") :
    expandLoop key rules (setColumn "LastUpdated" cs M) children =
      (expandLoop key rules M children).map
        (fun p => (setColumn "LastUpdated" cs p.1, p.2)) := by
  induction rules generalizing M children with
  | nil => rfl
  | cons r rs ih =>
    simp only [expandLoop]
    rw [expandStep_setColumn key r cs M children (hr r (by simp)).1 (hr r (by simp)).2]
    cases hE : expandStep key r M children with
    | none => rfl
    | some p =>
      obtain ⟨M2, ch2⟩ := p
      simp only [Option.map_some]
      exact ih M2 ch2 (fun x hx => hr x (by simp [hx]))

/-- `normalize_data` factored into its clock-independent core `normCore` and
the `LastUpdated` stamp. -/
theorem normalize_data_shape (data : JVal) (key : String) (t : Int) :
    normalize_data data key t =
      match normCore data key with
      | none => []
      | some (S, children, k) =>
        (key, setColumn "LastUpdated" (List.replicate k (Cell.timestamp t)) S)
          :: children := by
  unfold normalize_data normalizeWithRules normCore
  by_cases h0 : isFalsy data = true
  · rw [if_pos h0, if_pos h0]
  · rw [if_neg h0, if_neg h0]
    by_cases h1 : isFalsy (findItems data key) = true
    · rw [if_pos h1, if_pos h1]
    · rw [if_neg h1, if_neg h1]
      cases h2 : asRecords (findItems data key) with
      | none => rfl
      | some recs =>
        dsimp only
        by_cases h3 : (buildTable recs).isEmpty = true
        · rw [if_pos h3, if_pos h3]
        · rw [if_neg h3, if_neg h3]
          rw [process_dates_setColumn_timestamp recs.length t (buildTable recs)]
          rw [expandLoop_setColumn key expand_rules _ _ []
                (by intro r hr; fin_cases hr <;> exact ⟨by decide, by decide⟩)]
          cases h4 : expandLoop key expand_rules
              (process_dates_in_df (buildTable recs)) [] with
          | none => rfl
          | some p =>
            obtain ⟨M3, children⟩ := p
            dsimp only [Option.map]
            rw [serialize_setColumn_timestamp recs.length t M3]

/-- C4, counterexample: two invocations of `normalize_data` on the same
document and root key give different tables, because each invocation stamps
the root table's `LastUpdated` column with its own `datetime.now()` (here the
clock reads 0 at the first call and 1 at the second). -/
theorem c4_counterexample_lastupdated :
    normalize_data c4Doc "Items" 0 ≠ normalize_data c4Doc "Items" 1 := by
  intro h
  have h2 := congrArg firstLUStamp h
  rw [show firstLUStamp (normalize_data c4Doc "Items" 0) = some 0 from rfl,
      show firstLUStamp (normalize_data c4Doc "Items" 1) = some 1 from rfl] at h2
  exact absurd h2 (by decide)

/-- C4 (amended): `normalize_data` is deterministic apart from the
`LastUpdated` timestamp column it stamps into the root table — for every
document, root key and pair of invocation times, the two results agree on
table names and on every column once the `LastUpdated` column is removed from
each table. -/
theorem c4_normalize_deterministic_modulo_lastupdated (data : JVal)
    (key : String) (t1 t2 : Int) :
    dropLU (normalize_data data key t1) = dropLU (normalize_data data key t2) := by
  rw [normalize_data_shape data key t1, normalize_data_shape data key t2]
  cases hC : normCore data key with
  | none => rfl
  | some p =>
    obtain ⟨S, children, k⟩ := p
    simp only [dropLU, List.map_cons]
    rw [dropColumn_setColumn_same, dropColumn_setColumn_same]

/-! ### Claim C5: helper chain and claim theorem (uses the C4 helpers above) -/

theorem option_do_some {α β : Type} (a : α) (f : α → Option β) :
    (do
      let x ← some a
      f x) = f a := rfl

theorem option_mapM_append {α β : Type} (f : α → Option β) (l1 l2 : List α)
    (r1 r2 : List β) (h1 : l1.mapM f = some r1) (h2 : l2.mapM f = some r2) :
    (l1 ++ l2).mapM f = some (r1 ++ r2) := by
  induction l1 generalizing r1 with
  | nil =>
    have h1' : some ([] : List β) = some r1 := h1
    rw [Option.some_inj] at h1'
    subst h1'
    rw [List.nil_append, List.nil_append]
    exact h2
  | cons a l ih =>
    rw [List.mapM_cons] at h1
    cases hfa : f a with
    | none =>
      rw [hfa] at h1
      exact Option.noConfusion (show (none : Option (List β)) = some r1 from h1)
    | some b =>
      rw [hfa] at h1
      cases hml : l.mapM f with
      | none =>
        rw [hml] at h1
        exact Option.noConfusion (show (none : Option (List β)) = some r1 from h1)
      | some bs =>
        rw [hml] at h1
        have h1' : some (b :: bs) = some r1 := h1
        rw [Option.some_inj] at h1'
        subst h1'
        rw [List.cons_append, List.mapM_cons, hfa, ih bs hml]
        rfl

theorem option_mapM_length {α β : Type} (f : α → Option β) :
    ∀ (l : List α) (r : List β), l.mapM f = some r → r.length = l.length := by
  intro l
  induction l with
  | nil =>
    intro r h
    have h' : some ([] : List β) = some r := h
    rw [Option.some_inj] at h'
    subst h'
    rfl
  | cons a l ih =>
    intro r h
    rw [List.mapM_cons] at h
    cases hfa : f a with
    | none =>
      rw [hfa] at h
      exact Option.noConfusion (show (none : Option (List β)) = some r from h)
    | some b =>
      rw [hfa] at h
      cases hml : l.mapM f with
      | none =>
        rw [hml] at h
        exact Option.noConfusion (show (none : Option (List β)) = some r from h)
      | some bs =>
        rw [hml] at h
        have h' : some (b :: bs) = some r := h
        rw [Option.some_inj] at h'
        subst h'
        rw [List.length_cons, List.length_cons, ih bs hml]

theorem any_replicate_false {α : Type} (x : α) (p : α → Bool) (h : p x = false) :
    ∀ k : Nat, (List.replicate k x).any p = false := by
  intro k
  induction k with
  | zero => rfl
  | succ k ih =>
    rw [List.replicate_succ, List.any_cons, h, ih]
    rfl

theorem filterMap_cellKind_all_int (cells : List Cell)
    (h : ∀ c ∈ cells, ∃ k, c = Cell.jval (.int k)) :
    cells.filterMap cellKind = List.replicate cells.length CKind.kInt := by
  induction cells with
  | nil => rfl
  | cons c cs ih =>
    obtain ⟨k, rfl⟩ := h c (List.mem_cons_self c cs)
    rw [List.filterMap_cons_some
        (show cellKind (Cell.jval (.int k)) = some CKind.kInt from rfl)]
    rw [List.length_cons, List.replicate_succ]
    rw [ih (fun x hx => h x (List.mem_cons_of_mem _ hx))]

theorem columnIsObject_all_int (cells : List Cell)
    (h : ∀ c ∈ cells, ∃ k, c = Cell.jval (.int k)) :
    columnIsObject cells = false := by
  unfold columnIsObject
  rw [filterMap_cellKind_all_int cells h]
  rw [show cells.any isMissingCell = false from by
      rw [List.any_eq_false]
      intro c hc
      obtain ⟨k, rfl⟩ := h c hc
      intro hfalse
      exact Bool.noConfusion hfalse]
  dsimp only
  rw [any_replicate_false CKind.kInt
        (fun k => k == CKind.kStr || k == CKind.kComp) rfl cells.length]
  cases cells with
  | nil => rfl
  | cons c cs =>
    rw [List.length_cons, List.replicate_succ]
    rw [show (match (CKind.kInt :: List.replicate cs.length CKind.kInt) with
        | [] => false
        | k0 :: rest => rest.any fun k => !(k == k0))
        = (List.replicate cs.length CKind.kInt).any
            (fun k => !(k == CKind.kInt)) from rfl]
    rw [any_replicate_false CKind.kInt (fun k => !(k == CKind.kInt)) rfl cs.length]
    rw [show ((CKind.kInt :: List.replicate cs.length CKind.kInt).any
          fun k => k == CKind.kBool)
        = (List.replicate cs.length CKind.kInt).any (fun k => k == CKind.kBool) from by
          rw [List.any_cons]
          rfl]
    rw [any_replicate_false CKind.kInt (fun k => k == CKind.kBool) rfl cs.length]
    rfl

theorem processColumn_all_int (cells : List Cell)
    (h : ∀ c ∈ cells, ∃ k, c = Cell.jval (.int k)) :
    processColumn cells = cells := by
  unfold processColumn
  rw [columnIsObject_all_int cells h]
  rfl

theorem serializeColumn_all_int (cells : List Cell)
    (h : ∀ c ∈ cells, ∃ k, c = Cell.jval (.int k)) :
    serializeColumn cells = cells := by
  unfold serializeColumn
  rw [columnIsObject_all_int cells h]
  rfl

theorem processColumn_parse_fails (cells : List Cell)
    (h : cells.mapM toDatetimeCell = none) : processColumn cells = cells := by
  unfold processColumn
  rw [h]
  by_cases hc : columnIsObject cells = true
  · rw [if_pos hc]
  · rw [if_neg hc]

theorem processColumn_length (cells : List Cell) :
    (processColumn cells).length = cells.length := by
  unfold processColumn
  by_cases hc : columnIsObject cells = true
  · rw [if_pos hc]
    cases hm : cells.mapM toDatetimeCell with
    | none => rfl
    | some parsed =>
      dsimp only
      have hlen := option_mapM_length toDatetimeCell cells parsed hm
      by_cases ht : 2 * parsed.countP (fun o => o.isSome) > cells.length
      · rw [if_pos ht, List.length_map]
        exact hlen
      · rw [if_neg ht]
  · rw [if_neg hc]

theorem find_map_name_preserving (n : String) (g : List Cell → List Cell)
    (T : Table) :
    (T.map (fun c => (c.1, g c.2))).find? (fun c => c.1 == n)
      = (T.find? (fun c => c.1 == n)).map (fun c => (c.1, g c.2)) := by
  induction T with
  | nil => rfl
  | cons c T ih =>
    rw [List.map_cons]
    cases h : (c.1 == n) with
    | true =>
      rw [show ((c.1, g c.2) :: T.map (fun c => (c.1, g c.2))).find?
            (fun c => c.1 == n) = some (c.1, g c.2) from
            List.find?_cons_of_pos _ h]
      rw [show (c :: T).find? (fun c => c.1 == n) = some c from
            List.find?_cons_of_pos _ h]
      rfl
    | false =>
      rw [show ((c.1, g c.2) :: T.map (fun c => (c.1, g c.2))).find?
            (fun c => c.1 == n)
          = (T.map (fun c => (c.1, g c.2))).find? (fun c => c.1 == n) from
            List.find?_cons_of_neg _ (by
              rw [show (((c.1, g c.2)).1 == n) = (c.1 == n) from rfl, h]
              exact Bool.false_ne_true)]
      rw [show (c :: T).find? (fun c => c.1 == n) = T.find? (fun c => c.1 == n) from
            List.find?_cons_of_neg _ (by rw [h]; exact Bool.false_ne_true)]
      exact ih

theorem getCol_process_dates (n : String) (T : Table) :
    getCol n (process_dates_in_df T) = processColumn (getCol n T) := by
  unfold process_dates_in_df getCol
  rw [find_map_name_preserving]
  cases T.find? (fun c => c.1 == n) with
  | none => rfl
  | some c => rfl

theorem find_replace_self (n : String) (cs : List Cell) (T : Table)
    (hT : T.any (fun c => c.1 == n) = true) :
    (T.map (fun c => if c.1 == n then (n, cs) else c)).find? (fun c => c.1 == n)
      = some (n, cs) := by
  induction T with
  | nil => exact Bool.noConfusion hT
  | cons c T ih =>
    rw [List.map_cons]
    cases h : (c.1 == n) with
    | true =>
      rw [show (if true = true then ((n : String), cs) else c) = (n, cs) from rfl]
      exact (show (((n, cs) : String × List Cell) ::
          T.map (fun c => if c.1 == n then (n, cs) else c)).find?
            (fun c => c.1 == n) = some (n, cs) from
          List.find?_cons_of_pos _ (beq_self_eq_true n))
    | false =>
      rw [show (if false = true then ((n : String), cs) else c) = c from rfl]
      rw [show (c :: T.map (fun c => if c.1 == n then (n, cs) else c)).find?
            (fun c => c.1 == n)
          = (T.map (fun c => if c.1 == n then (n, cs) else c)).find?
            (fun c => c.1 == n) from
            List.find?_cons_of_neg _ (by rw [h]; exact Bool.false_ne_true)]
      apply ih
      rw [List.any_cons, h, Bool.false_or] at hT
      exact hT

theorem getCol_setColumn_self (n : String) (cs : List Cell) (T : Table) :
    getCol n (setColumn n cs T) = cs := by
  unfold setColumn
  by_cases hT : T.any (fun c => c.1 == n) = true
  · rw [if_pos hT]
    unfold getCol
    rw [find_replace_self n cs T hT]
  · rw [if_neg hT]
    unfold getCol
    rw [List.find?_append]
    rw [show T.find? (fun c => c.1 == n) = none from by
        rw [List.find?_eq_none]
        intro x hx hpx
        exact hT (List.any_eq_true.mpr ⟨x, hx, hpx⟩)]
    rw [show List.find? (fun c => c.1 == n) [(n, cs)] = some (n, cs) from
        List.find?_cons_of_pos _ (beq_self_eq_true n)]
    rfl

theorem buildTable_col_length (recs : List (List (String × JVal))) :
    ∀ col ∈ buildTable recs, col.2.length = recs.length := by
  intro col hcol
  unfold buildTable at hcol
  obtain ⟨c, _, rfl⟩ := List.mem_map.mp hcol
  dsimp only
  rw [List.length_map, List.length_map]

theorem setColumn_col_length (n : String) (cs : List Cell) (T : Table) (k : Nat)
    (hcs : cs.length = k) (hT : ∀ col ∈ T, col.2.length = k) :
    ∀ col ∈ setColumn n cs T, col.2.length = k := by
  intro col hcol
  unfold setColumn at hcol
  by_cases hany : T.any (fun c => c.1 == n) = true
  · rw [if_pos hany] at hcol
    obtain ⟨c, hc, rfl⟩ := List.mem_map.mp hcol
    cases h1 : (c.1 == n) with
    | true =>
      rw [show (if true = true then ((n : String), cs) else c) = (n, cs) from rfl]
      exact hcs
    | false =>
      rw [show (if false = true then ((n : String), cs) else c) = c from rfl]
      exact hT c hc
  · rw [if_neg hany] at hcol
    rcases List.mem_append.mp hcol with hmem | hmem
    · exact hT col hmem
    · rw [List.mem_singleton] at hmem
      subst hmem
      exact hcs

theorem process_dates_col_length (T : Table) (k : Nat)
    (hT : ∀ col ∈ T, col.2.length = k) :
    ∀ col ∈ process_dates_in_df T, col.2.length = k := by
  intro col hcol
  unfold process_dates_in_df at hcol
  obtain ⟨c, hc, rfl⟩ := List.mem_map.mp hcol
  dsimp only
  rw [processColumn_length]
  exact hT c hc

theorem c5_explode_head (pid : Int) (es : List (List (String × JVal))) :
    ((explodeCell (Cell.jval (.arr (es.map JVal.obj)))).map
        (fun e => (Cell.jval (JVal.int pid), e))).filter
      (fun pc => !(isMissingCell pc.1) && !(isMissingCell pc.2))
    = es.map (fun e => (Cell.jval (.int pid), Cell.jval (.obj e))) := by
  cases es with
  | nil => rfl
  | cons e es =>
    rw [List.map_cons]
    rw [show explodeCell (Cell.jval (.arr (JVal.obj e :: es.map JVal.obj)))
        = (JVal.obj e :: es.map JVal.obj).map cellOfJVal from rfl]
    rw [show (JVal.obj e :: es.map JVal.obj).map cellOfJVal
        = (e :: es).map (fun x => Cell.jval (.obj x)) from by
          rw [← List.map_cons JVal.obj e es, List.map_map]
          apply List.map_congr_left
          intro a _
          rfl]
    have hfil : (((e :: es).map (fun x => Cell.jval (.obj x))).map
          (fun e => (Cell.jval (JVal.int pid), e))).filter
        (fun pc => !(isMissingCell pc.1) && !(isMissingCell pc.2))
      = ((e :: es).map (fun x => Cell.jval (.obj x))).map
          (fun e => (Cell.jval (JVal.int pid), e)) := by
      apply List.filter_eq_self.mpr
      intro a ha
      rw [List.map_map] at ha
      obtain ⟨x, _, rfl⟩ := List.mem_map.mp ha
      rfl
    rw [hfil, List.map_map]
    apply List.map_congr_left
    intro a _
    rfl

theorem c5_explodePairs (parents : List C5Parent) :
    explodePairs (c5IdCells parents) (c5LinesCells parents) = c5Pairs parents := by
  induction parents with
  | nil => rfl
  | cons p ps ih =>
    unfold explodePairs c5IdCells c5LinesCells c5Pairs at ih ⊢
    rw [List.map_cons, List.map_cons, List.zip_cons_cons, List.flatMap_cons,
        List.filter_append, List.flatMap_cons, ih]
    congr 1
    exact c5_explode_head p.1 p.2

theorem c5_mapM_records_seg (pid : Int) (es : List (List (String × JVal))) :
    (es.map (fun e => (Cell.jval (JVal.int pid), Cell.jval (JVal.obj e)))).mapM
        (fun pc => recordOfCell pc.2) = some es := by
  induction es with
  | nil => rfl
  | cons e es ih =>
    rw [List.map_cons, List.mapM_cons, ih]
    rfl

theorem c5_mapM_records (parents : List C5Parent) :
    (c5Pairs parents).mapM (fun pc => recordOfCell pc.2)
      = some (parents.flatMap (fun p => p.2)) := by
  induction parents with
  | nil => rfl
  | cons p ps ih =>
    unfold c5Pairs at ih ⊢
    rw [List.flatMap_cons, List.flatMap_cons]
    exact option_mapM_append _ _ _ _ _ (c5_mapM_records_seg p.1 p.2) ih

theorem c5_pairs_fst (parents : List C5Parent) :
    (c5Pairs parents).map (fun pc => pc.1) = c5FkCells parents := by
  induction parents with
  | nil => rfl
  | cons p ps ih =>
    unfold c5Pairs c5FkCells at ih ⊢
    rw [List.flatMap_cons, List.flatMap_cons, List.map_append, ih, List.map_map]
    congr 1

theorem c5_pairs_nonempty (parents : List C5Parent)
    (h : ∃ p ∈ parents, p.2 ≠ []) : (c5Pairs parents).isEmpty = false := by
  obtain ⟨p, hp, hne2⟩ := h
  rw [List.isEmpty_eq_false]
  unfold c5Pairs
  intro hnil
  rw [List.flatMap_eq_nil_iff] at hnil
  have h2 := hnil p hp
  rw [List.map_eq_nil_iff] at h2
  exact hne2 h2

theorem c5_map_flattenFields (parents : List C5Parent) :
    (c5Recs parents).map flattenFields = c5Recs parents := by
  unfold c5Recs
  rw [List.map_map]
  apply List.map_congr_left
  intro p _
  rfl

theorem c5_colsUnion (p : C5Parent) (ps : List C5Parent) :
    colsUnion (c5Recs (p :: ps)) = ["id", "lines"] := by
  unfold colsUnion c5Recs
  rw [List.map_cons, List.foldl_cons]
  rw [show addCols [] (c5Fields p) = ["id", "lines"] from rfl]
  induction ps with
  | nil => rfl
  | cons q qs ih =>
    rw [List.map_cons, List.foldl_cons]
    rw [show addCols ["id", "lines"] (c5Fields q) = ["id", "lines"] from rfl]
    exact ih

theorem c5_idColumn (parents : List C5Parent) :
    (c5Recs parents).map (fun r =>
        match lookupField r "id" with
        | some v => cellOfJVal v
        | none => Cell.missing) = c5IdCells parents := by
  unfold c5Recs c5IdCells
  rw [List.map_map]
  apply List.map_congr_left
  intro p _
  rfl

theorem c5_linesColumn (parents : List C5Parent) :
    (c5Recs parents).map (fun r =>
        match lookupField r "lines" with
        | some v => cellOfJVal v
        | none => Cell.missing) = c5LinesCells parents := by
  unfold c5Recs c5LinesCells
  rw [List.map_map]
  apply List.map_congr_left
  intro p _
  rfl

theorem c5_buildTable_main (p : C5Parent) (ps : List C5Parent) :
    buildTable (c5Recs (p :: ps))
      = [("id", c5IdCells (p :: ps)), ("lines", c5LinesCells (p :: ps))] := by
  unfold buildTable
  rw [c5_map_flattenFields, c5_colsUnion p ps]
  rw [List.map_cons, List.map_cons, List.map_nil]
  rw [c5_idColumn, c5_linesColumn]

theorem c5_idCells_all_int (parents : List C5Parent) :
    ∀ c ∈ c5IdCells parents, ∃ k, c = Cell.jval (.int k) := by
  intro c hc
  unfold c5IdCells at hc
  obtain ⟨p, _, rfl⟩ := List.mem_map.mp hc
  exact ⟨p.1, rfl⟩

theorem c5_fkCells_all_int (parents : List C5Parent) :
    ∀ c ∈ c5FkCells parents, ∃ k, c = Cell.jval (.int k) := by
  intro c hc
  unfold c5FkCells at hc
  obtain ⟨p, _, hmem⟩ := List.mem_flatMap.mp hc
  obtain ⟨e, _, rfl⟩ := List.mem_map.mp hmem
  exact ⟨p.1, rfl⟩

theorem c5_mapM_toDatetime_lines (p : C5Parent) (ps : List C5Parent) :
    (c5LinesCells (p :: ps)).mapM toDatetimeCell = none := by
  unfold c5LinesCells
  rw [List.map_cons, List.mapM_cons]
  rfl

theorem c5_M2_eq (p : C5Parent) (ps : List C5Parent) (t : Int) :
    process_dates_in_df (setColumn "LastUpdated"
        (List.replicate (c5Recs (p :: ps)).length (Cell.timestamp t))
        (buildTable (c5Recs (p :: ps))))
      = c5M2 (p :: ps) t := by
  rw [show (c5Recs (p :: ps)).length = (p :: ps).length from by
      unfold c5Recs
      rw [List.length_map]]
  rw [c5_buildTable_main]
  rw [show setColumn "LastUpdated"
        (List.replicate (p :: ps).length (Cell.timestamp t))
        [("id", c5IdCells (p :: ps)), ("lines", c5LinesCells (p :: ps))]
      = [("id", c5IdCells (p :: ps)), ("lines", c5LinesCells (p :: ps)),
         ("LastUpdated", List.replicate (p :: ps).length (Cell.timestamp t))] from by
        unfold setColumn
        rfl]
  unfold process_dates_in_df
  rw [List.map_cons, List.map_cons, List.map_cons, List.map_nil]
  dsimp only
  rw [show processColumn (c5IdCells (p :: ps)) = c5IdCells (p :: ps) from
        processColumn_all_int _ (c5_idCells_all_int (p :: ps))]
  rw [processColumn_parse_fails _ (c5_mapM_toDatetime_lines p ps)]
  rw [processColumn_replicate_timestamp]
  rfl

theorem c5_recs_length (parents : List C5Parent) :
    (parents.flatMap (fun p => p.2)).length
      = (parents.map (fun p => p.2.length)).sum := by
  rw [List.length_flatMap]
  congr 1

theorem c5_fk_length (parents : List C5Parent) :
    (c5FkCells parents).length = (parents.map (fun p => p.2.length)).sum := by
  unfold c5FkCells
  rw [List.length_flatMap]
  congr 1
  apply List.map_congr_left
  intro p _
  exact List.length_map _ _

theorem c5_buildChildTable (parents : List C5Parent) :
    buildChildTable (c5Pairs parents) "id" = some (c5ChildT parents) := by
  unfold buildChildTable
  rw [c5_mapM_records, option_do_some, c5_pairs_fst]
  rfl

theorem c5_expandStep (t : Int) (parents : List C5Parent)
    (hsome : (c5Pairs parents).isEmpty = false) :
    expandStep "Items" ("lines", "id", "lines") (c5M2 parents t) []
      = some ([("id", c5IdCells parents),
               ("LastUpdated", List.replicate parents.length (Cell.timestamp t))],
              [("Items_lines", c5ChildT parents)]) := by
  unfold expandStep
  simp only [show ((c5M2 parents t).any fun c => c.1 == "lines") = true from rfl,
             show ((c5M2 parents t).any fun c => c.1 == "id") = true from rfl,
             if_true]
  rw [show getCol "id" (c5M2 parents t) = c5IdCells parents from rfl,
      show getCol "lines" (c5M2 parents t) = c5LinesCells parents from rfl]
  rw [c5_explodePairs, hsome]
  simp only [Bool.false_eq_true, if_false]
  rw [c5_buildChildTable]
  dsimp only [Option.map]
  rw [show dictUpsert ("Items" ++ "_" ++ "lines") (c5ChildT parents) []
      = [("Items_lines", c5ChildT parents)] from by
        unfold dictUpsert
        rfl]
  rfl

theorem c5_expandLoop (t : Int) (parents : List C5Parent)
    (hsome : (c5Pairs parents).isEmpty = false) :
    expandLoop "Items" [("lines", "id", "lines")] (c5M2 parents t) []
      = some ([("id", c5IdCells parents),
               ("LastUpdated", List.replicate parents.length (Cell.timestamp t))],
              [("Items_lines", c5ChildT parents)]) := by
  unfold expandLoop
  rw [c5_expandStep t parents hsome]
  rfl

theorem c5_findItems (parents : List C5Parent) :
    findItems (c5Doc parents) "Items" = JVal.arr (parents.map c5Item) := rfl

theorem c5_mapM_objs (parents : List C5Parent) :
    (parents.map c5Item).mapM (fun v =>
        match v with
        | JVal.obj fs => some fs
        | _ => none) = some (c5Recs parents) := by
  unfold c5Recs
  induction parents with
  | nil => rfl
  | cons p ps ih =>
    rw [List.map_cons, List.mapM_cons, List.map_cons, ih]
    rfl

theorem c5_asRecords_items (parents : List C5Parent) :
    asRecords (JVal.arr (parents.map c5Item)) = some (c5Recs parents) := by
  rw [show asRecords (JVal.arr (parents.map c5Item))
      = (parents.map c5Item).mapM (fun v =>
          match v with
          | JVal.obj fs => some fs
          | _ => none) from rfl]
  exact c5_mapM_objs parents

theorem c5_serialize_main (parents : List C5Parent) (t : Int) :
    serializeRemaining [("id", c5IdCells parents),
        ("LastUpdated", List.replicate parents.length (Cell.timestamp t))]
      = [("id", c5IdCells parents),
         ("LastUpdated", List.replicate parents.length (Cell.timestamp t))] := by
  unfold serializeRemaining
  rw [List.map_cons, List.map_cons, List.map_nil]
  dsimp only
  rw [serializeColumn_all_int _ (c5_idCells_all_int parents),
      serializeColumn_replicate_timestamp]

theorem c5_child_id_col (parents : List C5Parent) :
    getCol "id" (c5ChildT parents) = c5FkCells parents := by
  unfold c5ChildT
  rw [getCol_process_dates, getCol_setColumn_self]
  exact processColumn_all_int _ (c5_fkCells_all_int parents)

theorem c5_child_col_length (parents : List C5Parent) :
    ∀ col ∈ c5ChildT parents,
      col.2.length = (parents.map (fun p => p.2.length)).sum := by
  unfold c5ChildT
  apply process_dates_col_length
  apply setColumn_col_length
  · rw [c5_fk_length]
  · intro col hcol
    rw [buildTable_col_length _ col hcol]
    exact c5_recs_length parents

/-- C5: for every document whose root item list holds any number of parent
records, each with an `id` value and a `lines` field that is a nested
list of arbitrary objects — at least one of them nonempty — and with `lines`
configured as expandable under `id` (the expansion-rule table is the source's
local `expand_rules` constant, here instantiated with that rule), normalizing
yields a parent table `Items` whose rows keep their `id` but no longer contain
the `lines` column (only the `LastUpdated` stamp is added), plus a separate
child table `Items_lines` containing one row per nested element — every one of
its columns has exactly one entry per element — whose `id` column carries each
parent's identifier value copied into that parent's element rows, in order, as
the foreign key. -/
theorem c5_expandable_field_extraction (t : Int) (parents : List C5Parent)
    (hne : parents ≠ [])
    (helem : ∃ p ∈ parents, p.2 ≠ []) :
    ∃ childT : Table,
      normalizeWithRules [("lines", "id", "lines")] (c5Doc parents) "Items" t
        = [("Items",
            [("id", parents.map (fun p => Cell.jval (.int p.1))),
             ("LastUpdated", List.replicate parents.length (Cell.timestamp t))]),
           ("Items_lines", childT)]
      ∧ getCol "id" childT
          = parents.flatMap (fun p => p.2.map (fun _ => Cell.jval (.int p.1)))
      ∧ ∀ col ∈ childT, col.2.length = (parents.map (fun p => p.2.length)).sum := by
  obtain ⟨p, ps, rfl⟩ := List.exists_cons_of_ne_nil hne
  refine ⟨c5ChildT (p :: ps), ?_, c5_child_id_col (p :: ps),
    c5_child_col_length (p :: ps)⟩
  have h := normalizeWithRules_eq [("lines", "id", "lines")]
    (c5Doc (p :: ps)) "Items" t
    (c5Recs (p :: ps)) (c5M2 (p :: ps) t)
    [("id", c5IdCells (p :: ps)),
     ("LastUpdated", List.replicate (p :: ps).length (Cell.timestamp t))]
    [("Items_lines", c5ChildT (p :: ps))]
    rfl
    (by rw [c5_findItems, List.map_cons]; rfl)
    (by rw [c5_findItems]; exact c5_asRecords_items (p :: ps))
    (by rw [c5_buildTable_main]; exact List.cons_ne_nil _ _)
    (c5_M2_eq p ps t)
    (c5_expandLoop t (p :: ps) (c5_pairs_nonempty (p :: ps) helem))
  rw [h, c5_serialize_main]
  rfl

/-- Witness for C5 at the claim's concrete example document
`Items = [ id 1, lines = [ [x 1], [x 2] ] ]`: a one-row parent table without
the `lines` column and a two-row child table, each row carrying `id = 1`. -/
theorem c5_expandable_field_extraction_witness :
    (([(1, [[("x", JVal.int 1)], [("x", JVal.int 2)]])] : List C5Parent) ≠ []
     ∧ ∃ q ∈ ([(1, [[("x", JVal.int 1)], [("x", JVal.int 2)]])] : List C5Parent),
         q.2 ≠ [])
    ∧ ∃ childT : Table,
      normalizeWithRules [("lines", "id", "lines")]
          (c5Doc [(1, [[("x", JVal.int 1)], [("x", JVal.int 2)]])]) "Items" 0
        = [("Items", [("id", [Cell.jval (.int 1)]),
                      ("LastUpdated", [Cell.timestamp 0])]),
           ("Items_lines", childT)]
      ∧ getCol "id" childT = [Cell.jval (.int 1), Cell.jval (.int 1)]
      ∧ ∀ col ∈ childT, col.2.length = 2 :=
  ⟨⟨List.cons_ne_nil _ _,
    ⟨(1, [[("x", JVal.int 1)], [("x", JVal.int 2)]]),
     List.mem_cons_self _ _, List.cons_ne_nil _ _⟩⟩,
   c5_expandable_field_extraction 0 [(1, [[("x", JVal.int 1)], [("x", JVal.int 2)]])]
     (List.cons_ne_nil _ _)
     ⟨(1, [[("x", JVal.int 1)], [("x", JVal.int 2)]]),
      List.mem_cons_self _ _, List.cons_ne_nil _ _⟩⟩

end XeroPkg
